import Mathlib

/-!
Verification of the registry/dispatch/resilience core of the
project-backlog MCP server (Python sources under src/mcp_server).

The embedding models, straight from the source:
  * the exception taxonomy of core/exceptions.py (as far as the claims need it),
  * CircuitBreaker of client/optimized_hypermanager.py,
  * APICache, the cache-key generation and the cacheable allow-list,
  * execute_with_error_handling together with its retry_on_failure decorator,
  * get_metrics,
  * ToolRegistry.validate_parameters / get_tool of mcp/registry.py and
    MCPHandlers.call_tool of mcp/handlers.py.

Modelling conventions: the float clock of time.time is modelled by an
arbitrary rational timestamp handed to each step; Python exceptions become
an inductive Exc whose str function mirrors the message each constructor
builds; a function that may raise returns Except Exc; mutation of an object
becomes explicit state passing.
-/

/-- Python exceptions of core/exceptions.py that the core can raise, plus a
constructor for arbitrary foreign exceptions. Each constructor stores the
arguments handed to the Python constructor. -/
inductive Exc where
  | validationError (message : String) (missing_params : List String)
  | toolNotFoundError (tool_name : String)
  | hyperManagerAPIError (message : String)
  | otherError (message : String)
deriving DecidableEq, Repr

/-- str(e) for each exception: MCPServerError stores self.message and passes
it to Exception, so str(e) is the stored message; ToolNotFoundError and
HyperManagerAPIError build their message from their argument. -/
def Exc.str : Exc → String
  | .validationError m _ => m
  | .toolNotFoundError n => "Tool \x27" ++ n ++ "\x27 not found"
  | .hyperManagerAPIError m => "HyperManager API error: " ++ m
  | .otherError m => m

/-- The error the breaker raises while OPEN: the source raises
HyperManagerAPIError with this message (the spec names it CircuitOpenError). -/
def CircuitOpenError : Exc := .hyperManagerAPIError "Circuit breaker is OPEN"

inductive BreakerState where
  | CLOSED
  | OPEN
  | HALF_OPEN
deriving DecidableEq, Repr

/-- State of class CircuitBreaker. last_failure_time starts as Python None. -/
structure CircuitBreaker where
  failure_threshold : Nat
  recovery_timeout : ℚ
  failure_count : Nat
  last_failure_time : Option ℚ
  state : BreakerState
deriving DecidableEq, Repr

/-- CircuitBreaker.__init__ with its defaults (threshold 5, timeout 60). -/
def CircuitBreaker.mkInitial (failure_threshold : Nat) (recovery_timeout : ℚ) :
    CircuitBreaker :=
  { failure_threshold := failure_threshold
    recovery_timeout := recovery_timeout
    failure_count := 0
    last_failure_time := none
    state := .CLOSED }

/-- Lines 30-34 of CircuitBreaker.call: the OPEN gate run before the wrapped
function. Returns the breaker that enters the try block, or the circuit-open
error. In the source last_failure_time is always set when state is OPEN
(proved below for reachable states); the getD 0 default is never read there. -/
def CircuitBreaker.preCall (cb : CircuitBreaker) (now : ℚ) :
    Except Exc CircuitBreaker :=
  if cb.state = .OPEN then
    if now - cb.last_failure_time.getD 0 > cb.recovery_timeout then
      .ok { cb with state := .HALF_OPEN }
    else
      .error CircuitOpenError
  else
    .ok cb

/-- Lines 36-49 of CircuitBreaker.call: the try block, given the outcome of
the wrapped function (ok v for a return, error e for a raise). -/
def CircuitBreaker.afterTry {V : Type} (cb : CircuitBreaker) (now : ℚ)
    (outcome : Except Exc V) : Except Exc V × CircuitBreaker :=
  match outcome with
  | .ok v =>
      if cb.state = .HALF_OPEN then
        (.ok v, { cb with state := .CLOSED, failure_count := 0 })
      else
        (.ok v, cb)
  | .error e =>
      let fc := cb.failure_count + 1
      (.error e,
        { cb with
            failure_count := fc
            last_failure_time := some now
            state := if cb.failure_threshold ≤ fc then .OPEN else cb.state })

/-- Result of one CircuitBreaker.call: the returned value or raised
exception, the breaker afterwards, and whether the wrapped function was
invoked at all. -/
structure CallOutcome (V : Type) where
  result : Except Exc V
  breaker : CircuitBreaker
  invoked : Bool

/-- CircuitBreaker.call, with the wrapped function summarised by the outcome
it would produce if invoked now. -/
def CircuitBreaker.call {V : Type} (cb : CircuitBreaker) (now : ℚ)
    (outcome : Except Exc V) : CallOutcome V :=
  match cb.preCall now with
  | .error e => ⟨.error e, cb, false⟩
  | .ok cb1 =>
      let r := cb1.afterTry now outcome
      ⟨r.1, r.2, true⟩

/-- Breaker states reachable from a freshly constructed breaker by any
sequence of calls at arbitrary times with arbitrary outcomes. -/
inductive CircuitBreaker.Reachable (ft : Nat) (rt : ℚ) : CircuitBreaker → Prop where
  | init : CircuitBreaker.Reachable ft rt (CircuitBreaker.mkInitial ft rt)
  | step (cb : CircuitBreaker) (now : ℚ) (outcome : Except Exc Unit) :
      CircuitBreaker.Reachable ft rt cb →
      CircuitBreaker.Reachable ft rt (cb.call now outcome).breaker

/-- A sequence of calls whose wrapped function fails every time, applied to a
breaker: each element gives the time of the call and the exception raised. -/
def CircuitBreaker.applyFailures (cb : CircuitBreaker) (l : List (ℚ × Exc)) :
    CircuitBreaker :=
  l.foldl (fun c p => (c.call p.1 (Except.error p.2 : Except Exc Unit)).breaker) cb

theorem applyFailures_nil (cb : CircuitBreaker) : cb.applyFailures [] = cb := rfl

theorem applyFailures_cons (cb : CircuitBreaker) (p : ℚ × Exc) (t : List (ℚ × Exc)) :
    cb.applyFailures (p :: t) =
      ((cb.call p.1 (Except.error p.2 : Except Exc Unit)).breaker).applyFailures t := rfl

/-- One failing call from CLOSED: the count rises by one and the breaker opens
exactly when the new count reaches the threshold. -/
theorem call_closed_failure (cb : CircuitBreaker) (now : ℚ) (e : Exc)
    (h : cb.state = .CLOSED) :
    (cb.call now (Except.error e : Except Exc Unit)).breaker =
      { cb with
          failure_count := cb.failure_count + 1
          last_failure_time := some now
          state :=
            if cb.failure_threshold ≤ cb.failure_count + 1 then .OPEN else .CLOSED } := by
  simp [CircuitBreaker.call, CircuitBreaker.preCall, CircuitBreaker.afterTry, h]

/-- Failures that stay strictly below the threshold keep the breaker CLOSED
and just accumulate in the counter. -/
theorem applyFailures_stays_closed (l : List (ℚ × Exc)) :
    ∀ cb : CircuitBreaker, cb.state = .CLOSED →
      cb.failure_count + l.length < cb.failure_threshold →
      (cb.applyFailures l).state = .CLOSED ∧
      (cb.applyFailures l).failure_count = cb.failure_count + l.length ∧
      (cb.applyFailures l).failure_threshold = cb.failure_threshold := by
  induction l with
  | nil => intro cb h _; simpa [applyFailures_nil] using h
  | cons p t ih =>
      intro cb h hlt
      rw [applyFailures_cons, call_closed_failure cb p.1 p.2 h]
      have hnot : ¬ cb.failure_threshold ≤ cb.failure_count + 1 := by
        simp only [List.length_cons] at hlt; omega
      simp only [hnot, if_false]
      have := ih { cb with
          failure_count := cb.failure_count + 1
          last_failure_time := some p.1
          state := .CLOSED } rfl (by simp only [List.length_cons] at hlt ⊢; omega)
      simpa [Nat.add_comm, Nat.add_assoc, Nat.add_left_comm] using this

/-- A run of consecutive failures whose length brings the count exactly to
the threshold leaves the breaker OPEN. -/
theorem applyFailures_opens (l : List (ℚ × Exc)) :
    ∀ cb : CircuitBreaker, cb.state = .CLOSED →
      cb.failure_count + l.length = cb.failure_threshold → l ≠ [] →
      (cb.applyFailures l).state = .OPEN := by
  induction l with
  | nil => intro cb _ _ hne; exact absurd rfl hne
  | cons p t ih =>
      intro cb h hlen _
      rw [applyFailures_cons, call_closed_failure cb p.1 p.2 h]
      cases t with
      | nil =>
          have hge : cb.failure_threshold ≤ cb.failure_count + 1 := by
            simp only [List.length_cons, List.length_nil] at hlen; omega
          simp [applyFailures_nil, hge]
      | cons q u =>
          have hnot : ¬ cb.failure_threshold ≤ cb.failure_count + 1 := by
            simp only [List.length_cons] at hlen; omega
          simp only [hnot, if_false]
          exact ih _ rfl (by simp only [List.length_cons] at hlen ⊢; omega)
            (List.cons_ne_nil q u)

/-- Invariant of reachable breaker states: the constructor arguments are
retained, and away from CLOSED the counter has reached the threshold and the
failure timestamp is set. -/
theorem reachable_invariant {ft : Nat} {rt : ℚ} {cb : CircuitBreaker}
    (h : CircuitBreaker.Reachable ft rt cb) :
    cb.failure_threshold = ft ∧ cb.recovery_timeout = rt ∧
    (cb.state ≠ .CLOSED → ft ≤ cb.failure_count ∧ cb.last_failure_time.isSome = true) := by
  induction h with
  | init => simp [CircuitBreaker.mkInitial]
  | step cb now outcome hr ih =>
      obtain ⟨hft, hrt, hinv⟩ := ih
      cases hgate : cb.preCall now with
      | error e =>
          simp only [CircuitBreaker.call, hgate]
          exact ⟨hft, hrt, hinv⟩
      | ok cb1 =>
          have hcb1 : (cb1 = cb ∧ cb.state ≠ .OPEN) ∨
              (cb1 = { cb with state := .HALF_OPEN } ∧ cb.state = .OPEN) := by
            unfold CircuitBreaker.preCall at hgate
            split at hgate
            · split at hgate
              · exact Or.inr ⟨(Except.ok.inj hgate).symm, by assumption⟩
              · cases hgate
            · exact Or.inl ⟨(Except.ok.inj hgate).symm, by assumption⟩
          have hft1 : cb1.failure_threshold = ft := by
            rcases hcb1 with ⟨rfl, _⟩ | ⟨rfl, _⟩ <;> simpa using hft
          have hrt1 : cb1.recovery_timeout = rt := by
            rcases hcb1 with ⟨rfl, _⟩ | ⟨rfl, _⟩ <;> simpa using hrt
          have hinv1 : cb1.state ≠ .CLOSED →
              ft ≤ cb1.failure_count ∧ cb1.last_failure_time.isSome = true := by
            rcases hcb1 with ⟨rfl, _⟩ | ⟨rfl, hopen⟩
            · exact hinv
            · intro _
              simpa using hinv (by simp [hopen])
          cases outcome with
          | ok v =>
              by_cases hhalf : cb1.state = .HALF_OPEN
              · simp [CircuitBreaker.call, hgate, CircuitBreaker.afterTry, hhalf,
                  hft1, hrt1]
              · simp only [CircuitBreaker.call, hgate, CircuitBreaker.afterTry,
                  hhalf, if_false]
                exact ⟨hft1, hrt1, hinv1⟩
          | error e =>
              simp only [CircuitBreaker.call, hgate, CircuitBreaker.afterTry]
              refine ⟨hft1, hrt1, ?_⟩
              intro hs
              refine ⟨?_, by simp⟩
              by_cases hth : cb1.failure_threshold ≤ cb1.failure_count + 1
              · exact hft1 ▸ hth
              · have hstate : cb1.state ≠ .CLOSED := by
                  simp only [hth, if_false] at hs
                  exact hs
                exact Nat.le_succ_of_le (hinv1 hstate).1

/-- Characterisation of a passed OPEN gate: either the breaker was not OPEN
and enters the try block unchanged, or it was OPEN past the timeout and
enters as HALF_OPEN. -/
theorem preCall_ok_cases (cb : CircuitBreaker) (now : ℚ) (cb1 : CircuitBreaker)
    (hgate : cb.preCall now = .ok cb1) :
    (cb1 = cb ∧ cb.state ≠ .OPEN) ∨
    (cb1 = { cb with state := .HALF_OPEN } ∧ cb.state = .OPEN) := by
  unfold CircuitBreaker.preCall at hgate
  split at hgate
  · split at hgate
    · exact Or.inr ⟨(Except.ok.inj hgate).symm, by assumption⟩
    · cases hgate
  · exact Or.inl ⟨(Except.ok.inj hgate).symm, by assumption⟩

/-- Claim C1: the circuit breaker is a three-state machine. With the default
construction (failureThreshold 5, recoveryTimeout 60s), 5 consecutive
failures drive a fresh breaker to OPEN; while OPEN and within the recovery
timeout of lastFailureTime, every call fails immediately with the
circuit-open error, the wrapped operation is not invoked and the breaker is
unchanged; the first call once the timeout has elapsed moves the gate to
HALF_OPEN and attempts the operation, and a success then leaves the breaker
CLOSED with failureCount 0. -/
theorem C1_three_state_machine :
    (∀ l : List (ℚ × Exc), l.length = 5 →
        ((CircuitBreaker.mkInitial 5 60).applyFailures l).state = .OPEN) ∧
    (∀ (cb : CircuitBreaker) (now t : ℚ) (outcome : Except Exc Unit),
        cb.state = .OPEN → cb.last_failure_time = some t →
        now - t ≤ cb.recovery_timeout →
        (cb.call now outcome).result = .error CircuitOpenError ∧
        (cb.call now outcome).invoked = false ∧
        (cb.call now outcome).breaker = cb) ∧
    (∀ (cb : CircuitBreaker) (now t : ℚ),
        cb.state = .OPEN → cb.last_failure_time = some t →
        cb.recovery_timeout < now - t →
        cb.preCall now = .ok { cb with state := .HALF_OPEN } ∧
        ∀ v : Unit,
          (cb.call now (Except.ok v)).invoked = true ∧
          (cb.call now (Except.ok v)).result = .ok v ∧
          (cb.call now (Except.ok v)).breaker.state = .CLOSED ∧
          (cb.call now (Except.ok v)).breaker.failure_count = 0) := by
  refine ⟨?_, ?_, ?_⟩
  · intro l hl
    refine applyFailures_opens l _ rfl ?_ ?_
    · simp [CircuitBreaker.mkInitial, hl]
    · intro hnil
      rw [hnil] at hl
      simp at hl
  · intro cb now t outcome hopen hlast hle
    have hnot : ¬ now - cb.last_failure_time.getD 0 > cb.recovery_timeout := by
      rw [hlast]
      simpa using hle
    simp [CircuitBreaker.call, CircuitBreaker.preCall, hopen, hnot]
  · intro cb now t hopen hlast hlt
    have hyes : now - cb.last_failure_time.getD 0 > cb.recovery_timeout := by
      rw [hlast]
      simpa using hlt
    have hpre : cb.preCall now = .ok { cb with state := .HALF_OPEN } := by
      simp [CircuitBreaker.preCall, hopen, hyes]
    refine ⟨hpre, fun v => ?_⟩
    simp [CircuitBreaker.call, hpre, CircuitBreaker.afterTry]

theorem C1_witness :
    ((CircuitBreaker.mkInitial 5 60).applyFailures
        [(0, .otherError "a"), (1, .otherError "a"), (2, .otherError "a"),
         (3, .otherError "a"), (4, .otherError "a")]).state = .OPEN ∧
    (((⟨5, 60, 5, some 0, .OPEN⟩ : CircuitBreaker).call 30
        (Except.ok () : Except Exc Unit)).result = .error CircuitOpenError ∧
      ((⟨5, 60, 5, some 0, .OPEN⟩ : CircuitBreaker).call 30
        (Except.ok () : Except Exc Unit)).invoked = false) ∧
    ((⟨5, 60, 5, some 0, .OPEN⟩ : CircuitBreaker).preCall 100 =
        .ok ⟨5, 60, 5, some 0, .HALF_OPEN⟩ ∧
      ((⟨5, 60, 5, some 0, .OPEN⟩ : CircuitBreaker).call 100
        (Except.ok () : Except Exc Unit)).breaker.failure_count = 0) := by
  have h2 := C1_three_state_machine.2.1 ⟨5, 60, 5, some 0, .OPEN⟩ 30 0
    (Except.ok ()) rfl rfl (by norm_num)
  have h3 := C1_three_state_machine.2.2 ⟨5, 60, 5, some 0, .OPEN⟩ 100 0
    rfl rfl (by norm_num)
  exact ⟨C1_three_state_machine.1 _ rfl, ⟨h2.1, h2.2.1⟩,
    ⟨h3.1, ((h3.2 ()).2.2.2)⟩⟩

/-- Claim C5 counterexample: a successful call while the breaker is CLOSED
does not reset failureCount: with count 3 the count stays 3, not 0, so the
claim that it is reset to 0 on any success while CLOSED is false. -/
theorem C5_counterexample :
    (⟨5, 60, 3, some 0, .CLOSED⟩ : CircuitBreaker).state = .CLOSED ∧
    ((⟨5, 60, 3, some 0, .CLOSED⟩ : CircuitBreaker).call 1
        (Except.ok () : Except Exc Unit)).result = .ok () ∧
    ¬ ((⟨5, 60, 3, some 0, .CLOSED⟩ : CircuitBreaker).call 1
        (Except.ok () : Except Exc Unit)).breaker.failure_count = 0 := by
  refine ⟨rfl, rfl, by decide⟩

/-- Claim C5 (amended): failureCount is reset to 0 only by a successful trial
call while HALF_OPEN; a successful call while CLOSED leaves the breaker,
failureCount included, completely unchanged, so failures separated by
successes still accumulate toward the threshold. -/
theorem C5_reset_only_on_half_open_success :
    (∀ (cb : CircuitBreaker) (now : ℚ) (v : Unit),
        cb.state = .CLOSED →
        (cb.call now (Except.ok v : Except Exc Unit)).breaker = cb) ∧
    (∀ (cb : CircuitBreaker) (now : ℚ) (v : Unit),
        cb.state = .HALF_OPEN →
        (cb.call now (Except.ok v : Except Exc Unit)).breaker.failure_count = 0 ∧
        (cb.call now (Except.ok v : Except Exc Unit)).breaker.state = .CLOSED) := by
  constructor
  · intro cb now v hc
    have hno : cb.state ≠ .OPEN := by rw [hc]; intro h; cases h
    have hnh : cb.state ≠ .HALF_OPEN := by rw [hc]; intro h; cases h
    simp [CircuitBreaker.call, CircuitBreaker.preCall, hno, CircuitBreaker.afterTry, hnh]
  · intro cb now v hh
    have hno : cb.state ≠ .OPEN := by rw [hh]; intro h; cases h
    simp [CircuitBreaker.call, CircuitBreaker.preCall, hno, CircuitBreaker.afterTry, hh]

theorem C5_amended_witness :
    ((⟨5, 60, 3, some 0, .CLOSED⟩ : CircuitBreaker).call 1
        (Except.ok () : Except Exc Unit)).breaker =
      (⟨5, 60, 3, some 0, .CLOSED⟩ : CircuitBreaker) ∧
    ((⟨5, 60, 5, some 0, .HALF_OPEN⟩ : CircuitBreaker).call 1
        (Except.ok () : Except Exc Unit)).breaker.failure_count = 0 :=
  ⟨C5_reset_only_on_half_open_success.1 ⟨5, 60, 3, some 0, .CLOSED⟩ 1 () rfl,
   (C5_reset_only_on_half_open_success.2 ⟨5, 60, 5, some 0, .HALF_OPEN⟩ 1 () rfl).1⟩

/-- Claim C10: in every reachable breaker state, when a call passes the gate
into HALF_OPEN the counter still satisfies failureCount >= failureThreshold
(entering HALF_OPEN does not reset it), and consequently a failing trial call
sends the breaker straight back to OPEN; it never stays HALF_OPEN after a
failure. -/
theorem C10_half_open_count_at_threshold (ft : Nat) (rt : ℚ) (cb : CircuitBreaker)
    (h : CircuitBreaker.Reachable ft rt cb) (now : ℚ) (cb1 : CircuitBreaker)
    (hgate : cb.preCall now = .ok cb1) (hho : cb1.state = .HALF_OPEN) :
    ft ≤ cb1.failure_count ∧
    ∀ e : Exc,
      (cb.call now (Except.error e : Except Exc Unit)).breaker.state = .OPEN := by
  obtain ⟨hft, hrt, hinv⟩ := reachable_invariant h
  have hcount : ft ≤ cb1.failure_count ∧ cb1.failure_threshold = ft := by
    rcases preCall_ok_cases cb now cb1 hgate with ⟨rfl, _⟩ | ⟨rfl, hopen⟩
    · exact ⟨(hinv (by rw [hho]; intro hx; cases hx)).1, hft⟩
    · exact ⟨(hinv (by rw [hopen]; intro hx; cases hx)).1, hft⟩
  refine ⟨hcount.1, fun e => ?_⟩
  have hth : cb1.failure_threshold ≤ cb1.failure_count + 1 := by
    rw [hcount.2]
    exact Nat.le_succ_of_le hcount.1
  simp [CircuitBreaker.call, hgate, CircuitBreaker.afterTry, hth]

theorem C10_witness :
    5 ≤ (⟨5, 60, 5, some 0, .HALF_OPEN⟩ : CircuitBreaker).failure_count ∧
    ((⟨5, 60, 5, some 0, .OPEN⟩ : CircuitBreaker).call 100
        (Except.error (Exc.otherError "boom") : Except Exc Unit)).breaker.state =
      .OPEN := by
  have h0 : CircuitBreaker.Reachable 5 60 (CircuitBreaker.mkInitial 5 60) :=
    CircuitBreaker.Reachable.init
  have h1 := CircuitBreaker.Reachable.step _ 0 (Except.error (Exc.otherError "e")) h0
  have h2 := CircuitBreaker.Reachable.step _ 0 (Except.error (Exc.otherError "e")) h1
  have h3 := CircuitBreaker.Reachable.step _ 0 (Except.error (Exc.otherError "e")) h2
  have h4 := CircuitBreaker.Reachable.step _ 0 (Except.error (Exc.otherError "e")) h3
  have h5 := CircuitBreaker.Reachable.step _ 0 (Except.error (Exc.otherError "e")) h4
  have h5' : CircuitBreaker.Reachable 5 60 ⟨5, 60, 5, some 0, .OPEN⟩ := h5
  have hmain := C10_half_open_count_at_threshold 5 60 ⟨5, 60, 5, some 0, .OPEN⟩ h5'
    100 ⟨5, 60, 5, some 0, .HALF_OPEN⟩ (by norm_num [CircuitBreaker.preCall]) rfl
  exact ⟨hmain.1, hmain.2 (Exc.otherError "boom")⟩

/-- A stored cache entry of APICache: the value and the absolute expiry
timestamp. -/
structure CacheEntry (V : Type) where
  value : V
  expires : ℚ

/-- State of class APICache. The Python dict becomes an association list with
unique keys (assignment replaces in place, del removes). -/
structure APICache (V : Type) where
  cache : List (String × CacheEntry V)
  default_ttl : ℚ

/-- Python dict assignment on an association list: replace the existing
binding in place, or append a new one. -/
def assocSet {β : Type} : List (String × β) → String → β → List (String × β)
  | [], k, v => [(k, v)]
  | (k0, v0) :: t, k, v =>
      if k0 = k then (k, v) :: t else (k0, v0) :: assocSet t k v

/-- APICache.get: return the value while now < expires, evict the entry
lazily once expired. Returns the value (None for a miss) and the cache
afterwards. -/
def APICache.get {V : Type} (c : APICache V) (key : String) (now : ℚ) :
    Option V × APICache V :=
  match List.lookup key c.cache with
  | some entry =>
      if now < entry.expires then
        (some entry.value, c)
      else
        (none, { c with cache := c.cache.eraseP (fun kv => kv.1 == key) })
  | none => (none, c)

/-- APICache.set: store with expiry now + ttl; the Python expression
"ttl or self.default_ttl" falls back to the default when ttl is None or 0. -/
def APICache.set {V : Type} (c : APICache V) (key : String) (value : V)
    (ttl : Option ℚ) (now : ℚ) : APICache V :=
  let t :=
    match ttl with
    | none => c.default_ttl
    | some x => if x = 0 then c.default_ttl else x
  { c with cache := assocSet c.cache key ⟨value, now + t⟩ }

/-- The fixed allow-list of _is_cacheable_operation. -/
def cacheable_operations : List String :=
  ["list_projects", "get_project", "get_projects_tree",
   "list_diagrams", "get_diagram", "get_diagram_definition",
   "get_feature_types", "get_story_tree", "get_story",
   "get_feature", "get_actor", "get_story_features",
   "get_feature_children", "get_actor_stories"]

def is_cacheable_operation (operation_name : String) : Bool :=
  cacheable_operations.contains operation_name

/-- Python substring containment on char lists, for the test
("list" in operation_name). -/
def charsContain (pat : List Char) : List Char → Bool
  | [] => pat.isEmpty
  | c :: t => pat.isPrefixOf (c :: t) || charsContain pat t

def strContains (s pat : String) : Bool := charsContain pat.toList s.toList

/-- The order Python sorted() uses on kwargs.items(): lexicographic on the
(key, value) pair of strings. -/
def pairLe (p q : String × String) : Prop :=
  p.1 < q.1 ∨ (p.1 = q.1 ∧ p.2 ≤ q.2)

instance pairLe.decidableRel : DecidableRel pairLe := fun p q => by
  unfold pairLe
  infer_instance

instance pairLe.isTotal : IsTotal (String × String) pairLe := by
  constructor
  intro p q
  rcases lt_trichotomy p.1 q.1 with h | h | h
  · exact Or.inl (Or.inl h)
  · rcases le_total p.2 q.2 with h2 | h2
    · exact Or.inl (Or.inr ⟨h, h2⟩)
    · exact Or.inr (Or.inr ⟨h.symm, h2⟩)
  · exact Or.inr (Or.inl h)

instance pairLe.isTrans : IsTrans (String × String) pairLe := by
  constructor
  intro a b c hab hbc
  rcases hab with h1 | ⟨h1, h1v⟩
  · rcases hbc with h2 | ⟨h2, _⟩
    · exact Or.inl (lt_trans h1 h2)
    · exact Or.inl (h2 ▸ h1)
  · rcases hbc with h2 | ⟨h2, h2v⟩
    · exact Or.inl (h1 ▸ h2)
    · exact Or.inr ⟨h1.trans h2, le_trans h1v h2v⟩

instance pairLe.isAntisymm : IsAntisymm (String × String) pairLe := by
  constructor
  intro a b hab hba
  rcases hab with h1 | ⟨h1, h1v⟩
  · rcases hba with h2 | ⟨h2, _⟩
    · exact absurd h2 (lt_asymm h1)
    · exact absurd (h2 ▸ h1) (lt_irrefl b.1)
  · rcases hba with h2 | ⟨h2, h2v⟩
    · exact absurd (h1 ▸ h2) (lt_irrefl b.1)
    · exact Prod.ext h1 (le_antisymm h1v h2v)

/-- _generate_cache_key: the operation name, the stringified positional
arguments, then the kwargs items sorted (Python sorted on the pairs) and
rendered k=v, all joined with the | separator. Values appear already
stringified, which the claims about key equality do not depend on. -/
def generate_cache_key (operation_name : String) (args : List String)
    (kwargs : List (String × String)) : String :=
  String.intercalate "|"
    (operation_name ::
      (args ++ (List.insertionSort pairLe kwargs).map (fun p => p.1 ++ "=" ++ p.2)))

/-- Claim C7: the cache key is independent of keyword-argument order: two
argument mappings with the same key/value pairs in any order produce the
same key, because the key is built from the operation name plus the sorted,
stringified pairs. -/
theorem C7_cache_key_order_independent (operation_name : String)
    (args : List String) (kw1 kw2 : List (String × String)) (h : kw1.Perm kw2) :
    generate_cache_key operation_name args kw1 =
      generate_cache_key operation_name args kw2 := by
  unfold generate_cache_key
  have hsort : List.insertionSort pairLe kw1 = List.insertionSort pairLe kw2 :=
    List.eq_of_perm_of_sorted
      (((List.perm_insertionSort pairLe kw1).trans h).trans
        (List.perm_insertionSort pairLe kw2).symm)
      (List.sorted_insertionSort pairLe kw1)
      (List.sorted_insertionSort pairLe kw2)
  rw [hsort]

theorem C7_witness :
    ([(("a" : String), ("1" : String)), (("b" : String), ("2" : String))]).Perm
        [(("b" : String), ("2" : String)), (("a" : String), ("1" : String))] ∧
    generate_cache_key "get_project" ["p1"] [("a", "1"), ("b", "2")] =
      generate_cache_key "get_project" ["p1"] [("b", "2"), ("a", "1")] :=
  ⟨List.Perm.swap ("b", "2") ("a", "1") [],
   C7_cache_key_order_independent "get_project" ["p1"] _ _
     (List.Perm.swap ("b", "2") ("a", "1") [])⟩

/-- The metrics dict of OptimizedHyperManagerClient. -/
structure Metrics where
  total_calls : Nat
  successful_calls : Nat
  failed_calls : Nat
  cache_hits : Nat
  average_response_time : ℚ
deriving DecidableEq, Repr

/-- Mutable state of OptimizedHyperManagerClient: cache, breaker and metrics
(the HTTP session object carries no semantics the claims touch). -/
structure ClientState (V : Type) where
  cache : APICache V
  circuit_breaker : CircuitBreaker
  metrics : Metrics

/-- OptimizedHyperManagerClient.__init__: APICache() with default_ttl 300,
CircuitBreaker() with defaults (5, 60), and zeroed metrics. -/
def freshClient (V : Type) : ClientState V :=
  { cache := { cache := [], default_ttl := 300 }
    circuit_breaker := CircuitBreaker.mkInitial 5 60
    metrics := ⟨0, 0, 0, 0, 0⟩ }

/-- Outcome of one entry into the body of execute_with_error_handling: the
returned or raised value, the client state afterwards, and how many times
the backend operation function was actually invoked (0 or 1). -/
structure ExecResult (V : Type) where
  result : Except Exc V
  state : ClientState V
  backendCalls : Nat

/-- The part of execute_with_error_handling after the cache lookup: the
breaker-guarded call, the cache store with the list/other TTL split, the
success metrics, and the failure path that wraps any exception in
HyperManagerAPIError("Failed to execute ...") after counting it. -/
def executeCore {V : Type} (st : ClientState V) (operation_name : String)
    (beh : Except Exc V) (cacheable : Bool) (key : String) (now dur : ℚ) :
    ExecResult V :=
  let co := st.circuit_breaker.call now beh
  let st1 := { st with circuit_breaker := co.breaker }
  match co.result with
  | .ok v =>
      let cache2 :=
        if cacheable then
          st1.cache.set key v
            (some (if strContains operation_name "list" then 300 else 60)) now
        else st1.cache
      let succ : Nat := st1.metrics.successful_calls + 1
      let avg :=
        (st1.metrics.average_response_time * ((succ : ℚ) - 1) + dur) / (succ : ℚ)
      { result := .ok v
        state :=
          { st1 with
              cache := cache2
              metrics :=
                { st1.metrics with
                    successful_calls := succ
                    average_response_time := avg } }
        backendCalls := if co.invoked then 1 else 0 }
  | .error e =>
      { result :=
          .error (.hyperManagerAPIError
            ("Failed to execute " ++ operation_name ++ ": " ++ e.str))
        state :=
          { st1 with
              metrics :=
                { st1.metrics with
                    failed_calls := st1.metrics.failed_calls + 1 } }
        backendCalls := if co.invoked then 1 else 0 }

/-- One entry into the body of execute_with_error_handling (the function the
retry decorator wraps): count the call, try the cache for cacheable
operations, otherwise run the guarded call. The behaviour of the backend on
this attempt is summarised by beh; now is the timestamp of the attempt and
dur the response time the success path records. -/
def executeOnce {V : Type} (st : ClientState V) (operation_name : String)
    (beh : Except Exc V) (args : List String) (kwargs : List (String × String))
    (now dur : ℚ) : ExecResult V :=
  let st0 :=
    { st with metrics := { st.metrics with total_calls := st.metrics.total_calls + 1 } }
  if is_cacheable_operation operation_name then
    let key := generate_cache_key operation_name args kwargs
    let g := st0.cache.get key now
    let st1 := { st0 with cache := g.2 }
    match g.1 with
    | some v =>
        { result := .ok v
          state :=
            { st1 with
                metrics :=
                  { st1.metrics with cache_hits := st1.metrics.cache_hits + 1 } }
          backendCalls := 0 }
    | none => executeCore st1 operation_name beh true key now dur
  else
    executeCore st0 operation_name beh false "" now dur

/-- Outcome of a full decorated invocation: result, final state, total
backend invocations, number of entries into the wrapped body, and the
backoff waits slept between attempts. -/
structure InvokeResult (V : Type) where
  result : Except Exc V
  state : ClientState V
  backendCalls : Nat
  attempts : Nat
  waits : List ℚ

/-- The loop of retry_on_failure around the body: attempt is the 0-based
loop index, the second argument the number of loop iterations still
available, and the last argument the exception recorded so far
(last_exception). A wait of backoff_factor * 2 ^ attempt is slept after a
failure except after the final attempt. -/
def invokeGo {V : Type} (operation_name : String) (beh : Nat → Except Exc V)
    (args : List String) (kwargs : List (String × String))
    (times durs : Nat → ℚ) (backoff_factor : ℚ) :
    Nat → Nat → ClientState V → Except Exc V → InvokeResult V
  | _, 0, st, last => ⟨last, st, 0, 0, []⟩
  | attempt, r + 1, st, _ =>
      let one :=
        executeOnce st operation_name (beh attempt) args kwargs
          (times attempt) (durs attempt)
      match one.result with
      | .ok v => ⟨.ok v, one.state, one.backendCalls, 1, []⟩
      | .error e =>
          let rest :=
            invokeGo operation_name beh args kwargs times durs backoff_factor
              (attempt + 1) r one.state (.error e)
          let ws :=
            if r = 0 then rest.waits
            else (backoff_factor * 2 ^ attempt) :: rest.waits
          ⟨rest.result, rest.state, one.backendCalls + rest.backendCalls,
            1 + rest.attempts, ws⟩

/-- The decorated execute_with_error_handling: retry_on_failure(max_retries=3)
with the default backoff factor 0.3 around the body. The initial
last_exception placeholder is never returned because at least one iteration
always runs. -/
def execute_with_error_handling {V : Type} (st : ClientState V)
    (operation_name : String) (beh : Nat → Except Exc V) (args : List String)
    (kwargs : List (String × String)) (times durs : Nat → ℚ) : InvokeResult V :=
  invokeGo operation_name beh args kwargs times durs (3 / 10) 0 (3 + 1) st
    (.error (.otherError "unreachable"))

/-- Round half to even at the integers, the tie-breaking Python round uses. -/
def roundHalfEven (x : ℚ) : ℤ :=
  let f := Int.ediv x.num (x.den : ℤ)
  let frac := x - (f : ℚ)
  if frac < 1 / 2 then f
  else if 1 / 2 < frac then f + 1
  else if f % 2 = 0 then f else f + 1

/-- Python round(x, 2) on the rational model of the float. -/
def pyRound2 (x : ℚ) : ℚ := (roundHalfEven (x * 100) : ℚ) / 100

/-- The snapshot returned by get_metrics. -/
structure MetricsSnapshot where
  total_calls : Nat
  successful_calls : Nat
  failed_calls : Nat
  cache_hits : Nat
  average_response_time : ℚ
  success_rate_percent : ℚ
  cache_hit_rate_percent : ℚ
  circuit_breaker_state : BreakerState
deriving DecidableEq, Repr

/-- OptimizedHyperManagerClient.get_metrics. -/
def get_metrics {V : Type} (st : ClientState V) : MetricsSnapshot :=
  let success_rate : ℚ :=
    if 0 < st.metrics.total_calls then
      (st.metrics.successful_calls : ℚ) / (st.metrics.total_calls : ℚ) * 100
    else 0
  let cache_hit_rate : ℚ :=
    if 0 < st.metrics.total_calls then
      (st.metrics.cache_hits : ℚ) / (st.metrics.total_calls : ℚ) * 100
    else 0
  { total_calls := st.metrics.total_calls
    successful_calls := st.metrics.successful_calls
    failed_calls := st.metrics.failed_calls
    cache_hits := st.metrics.cache_hits
    average_response_time := st.metrics.average_response_time
    success_rate_percent := pyRound2 success_rate
    cache_hit_rate_percent := pyRound2 cache_hit_rate
    circuit_breaker_state := st.circuit_breaker.state }

/-- One caller-level invocation: operation name, backend behaviour per
attempt, arguments, and the clock per attempt. -/
structure InvSpec (V : Type) where
  operation_name : String
  beh : Nat → Except Exc V
  args : List String
  kwargs : List (String × String)
  times : Nat → ℚ
  durs : Nat → ℚ

/-- Observable trace of one invocation. -/
structure InvSummary (V : Type) where
  result : Except Exc V
  attempts : Nat
  backendCalls : Nat

/-- A sequence of caller-level invocations against one client. -/
def runAll {V : Type} : ClientState V → List (InvSpec V) →
    ClientState V × List (InvSummary V)
  | st, [] => (st, [])
  | st, s :: rest =>
      let r :=
        execute_with_error_handling st s.operation_name s.beh s.args s.kwargs
          s.times s.durs
      let out := runAll r.state rest
      (out.1, ⟨r.result, r.attempts, r.backendCalls⟩ :: out.2)

/-- While OPEN within the recovery timeout, call rejects without invoking the
wrapped function and leaves the breaker unchanged. -/
theorem call_open_reject {V : Type} (cb : CircuitBreaker) (now t : ℚ)
    (outcome : Except Exc V) (hopen : cb.state = .OPEN)
    (hlast : cb.last_failure_time = some t)
    (hle : now - t ≤ cb.recovery_timeout) :
    cb.call now outcome = ⟨.error CircuitOpenError, cb, false⟩ := by
  have hnot : ¬ now - cb.last_failure_time.getD 0 > cb.recovery_timeout := by
    rw [hlast]
    simpa using hle
  simp [CircuitBreaker.call, CircuitBreaker.preCall, hopen, hnot]

/-- One entry into the wrapped body for a non-cacheable operation while the
breaker is OPEN within the timeout: the exception is counted and wrapped, no
backend call happens, and only total_calls and failed_calls move. -/
theorem executeOnce_open_reject {V : Type} (st : ClientState V) (name : String)
    (beh : Except Exc V) (args : List String) (kwargs : List (String × String))
    (now dur t : ℚ) (hnc : is_cacheable_operation name = false)
    (hopen : st.circuit_breaker.state = .OPEN)
    (hlast : st.circuit_breaker.last_failure_time = some t)
    (hle : now - t ≤ st.circuit_breaker.recovery_timeout) :
    executeOnce st name beh args kwargs now dur =
      { result :=
          .error (.hyperManagerAPIError
            ("Failed to execute " ++ name ++ ": " ++ CircuitOpenError.str))
        state :=
          { st with
              metrics :=
                { st.metrics with
                    total_calls := st.metrics.total_calls + 1
                    failed_calls := st.metrics.failed_calls + 1 } }
        backendCalls := 0 } := by
  unfold executeOnce
  rw [hnc]
  simp only [Bool.false_eq_true, if_false]
  unfold executeCore
  rw [call_open_reject st.circuit_breaker now t beh hopen hlast hle]
  rfl

/-- The retry loop over a body that rejects with the circuit open at every
attempt: every available iteration runs, none reaches the backend, the
breaker never changes, and the geometric backoff waits are slept between
attempts. -/
theorem invokeGo_open_reject {V : Type} (name : String) (beh : Nat → Except Exc V)
    (args : List String) (kwargs : List (String × String))
    (times durs : Nat → ℚ) (bf t : ℚ) (hnc : is_cacheable_operation name = false) :
    ∀ (r attempt : Nat) (st : ClientState V) (last : Except Exc V),
      st.circuit_breaker.state = .OPEN →
      st.circuit_breaker.last_failure_time = some t →
      (∀ i, attempt ≤ i → i < attempt + r →
        times i - t ≤ st.circuit_breaker.recovery_timeout) →
      (invokeGo name beh args kwargs times durs bf attempt r st last).backendCalls = 0 ∧
      (invokeGo name beh args kwargs times durs bf attempt r st last).attempts = r ∧
      (invokeGo name beh args kwargs times durs bf attempt r st last).waits =
        (List.range (r - 1)).map (fun i => bf * 2 ^ (attempt + i)) ∧
      (invokeGo name beh args kwargs times durs bf attempt r st
          last).state.circuit_breaker = st.circuit_breaker ∧
      (0 < r →
        (invokeGo name beh args kwargs times durs bf attempt r st last).result =
          .error (.hyperManagerAPIError
            ("Failed to execute " ++ name ++ ": " ++ CircuitOpenError.str))) := by
  intro r
  induction r with
  | zero =>
      intro attempt st last _ _ _
      simp [invokeGo]
  | succ k ih =>
      intro attempt st last hopen hlast htimes
      have hstep :=
        executeOnce_open_reject st name (beh attempt) args kwargs (times attempt)
          (durs attempt) t hnc hopen hlast
          (htimes attempt (Nat.le_refl attempt) (by omega))
      obtain ⟨hbc, hat, hws, hcb, hres⟩ :=
        ih (attempt + 1)
          { st with
              metrics :=
                { st.metrics with
                    total_calls := st.metrics.total_calls + 1
                    failed_calls := st.metrics.failed_calls + 1 } }
          (.error (.hyperManagerAPIError
            ("Failed to execute " ++ name ++ ": " ++ CircuitOpenError.str)))
          hopen hlast (fun i h1 h2 => htimes i (by omega) (by omega))
      have hres' :
          (invokeGo name beh args kwargs times durs bf (attempt + 1) k
            { st with
                metrics :=
                  { st.metrics with
                      total_calls := st.metrics.total_calls + 1
                      failed_calls := st.metrics.failed_calls + 1 } }
            (.error (.hyperManagerAPIError
              ("Failed to execute " ++ name ++ ": " ++ CircuitOpenError.str)))).result =
          .error (.hyperManagerAPIError
            ("Failed to execute " ++ name ++ ": " ++ CircuitOpenError.str)) := by
        cases k with
        | zero => simp [invokeGo]
        | succ m => exact hres (Nat.succ_pos m)
      simp only [invokeGo, hstep]
      refine ⟨?_, ?_, ?_, ?_, fun _ => ?_⟩
      · simpa using hbc
      · simp only [hat]
        omega
      · cases k with
        | zero =>
            simp only [if_pos rfl]
            simpa using hws
        | succ m =>
            have hne : ¬ (m + 1 = 0) := Nat.succ_ne_zero m
            simp only [hne, if_false, hws]
            have hr1 : m + 1 + 1 - 1 = m + 1 := by omega
            have hr2 : m + 1 - 1 = m := by omega
            rw [hr1, hr2, List.range_succ_eq_map, List.map_cons, List.map_map]
            refine congrArg₂ List.cons (by simp) ?_
            refine List.map_congr_left (fun i _ => ?_)
            show bf * 2 ^ (attempt + 1 + i) = bf * 2 ^ (attempt + (i + 1))
            have hx : attempt + 1 + i = attempt + (i + 1) := by omega
            rw [hx]
      · simpa using hcb
      · exact hres'

/-- A client whose breaker is OPEN (count 5, last failure at time 100). -/
def C4cex : ClientState Nat :=
  ⟨⟨[], 300⟩, ⟨5, 60, 5, some 100, .OPEN⟩, ⟨0, 0, 0, 0, 0⟩⟩

/-- Claim C4 counterexample: entered at time 101 while the breaker is OPEN
(timeout 60 far from elapsed), the invocation indeed never reaches the
backend, but it does not fail with a single circuit-open failure: the retry
decorator catches the circuit-open error like any other exception, so 4
attempts run with backoff waits 0.3s, 0.6s and 1.2s slept in between,
falsifying the claimed absence of retry/backoff iterations. -/
theorem C4_counterexample :
    (execute_with_error_handling C4cex "create_project"
        (fun _ => (.ok 7 : Except Exc Nat)) [] [] (fun _ => 101)
        (fun _ => 0)).backendCalls = 0 ∧
    (execute_with_error_handling C4cex "create_project"
        (fun _ => (.ok 7 : Except Exc Nat)) [] [] (fun _ => 101)
        (fun _ => 0)).attempts = 4 ∧
    ¬ (execute_with_error_handling C4cex "create_project"
        (fun _ => (.ok 7 : Except Exc Nat)) [] [] (fun _ => 101)
        (fun _ => 0)).attempts = 1 ∧
    (execute_with_error_handling C4cex "create_project"
        (fun _ => (.ok 7 : Except Exc Nat)) [] [] (fun _ => 101)
        (fun _ => 0)).waits = [3 / 10, 3 / 5, 6 / 5] := by
  obtain ⟨hbc, hat, hws, hcb, hres⟩ :=
    invokeGo_open_reject "create_project" (fun _ => (.ok 7 : Except Exc Nat)) [] []
      (fun _ => 101) (fun _ => 0) (3 / 10) 100 (by decide) 4 0 C4cex
      (.error (.otherError "unreachable")) rfl rfl
      (fun i _ _ => by show (101 : ℚ) - 100 ≤ 60; norm_num)
  refine ⟨hbc, hat, ?_, ?_⟩
  · simp only [execute_with_error_handling]
    rw [hat]
    omega
  · simp only [execute_with_error_handling]
    rw [hws]
    norm_num [List.range_succ]

/-- Claim C4 (amended): when invoke is entered while the breaker is OPEN and
the recovery timeout has not elapsed at any attempt time, no backend attempt
is made and the breaker is untouched, but the invocation is not rejected
after a single circuit-open failure: the retry decorator treats the
circuit-open error as retryable, so all maxRetries + 1 = 4 attempts run,
with backoff waits 0.3, 0.6 and 1.2 seconds, and the invocation finally
fails with the wrapped circuit-open error. -/
theorem C4_circuit_open_is_retried {V : Type} (st : ClientState V) (name : String)
    (beh : Nat → Except Exc V) (args : List String)
    (kwargs : List (String × String)) (times durs : Nat → ℚ) (t : ℚ)
    (hnc : is_cacheable_operation name = false)
    (hopen : st.circuit_breaker.state = .OPEN)
    (hlast : st.circuit_breaker.last_failure_time = some t)
    (htimes : ∀ i, i < 4 → times i - t ≤ st.circuit_breaker.recovery_timeout) :
    (execute_with_error_handling st name beh args kwargs times durs).backendCalls
        = 0 ∧
    (execute_with_error_handling st name beh args kwargs times durs).attempts = 4 ∧
    (execute_with_error_handling st name beh args kwargs times
        durs).state.circuit_breaker = st.circuit_breaker ∧
    (execute_with_error_handling st name beh args kwargs times durs).waits =
      [3 / 10, 3 / 5, 6 / 5] ∧
    (execute_with_error_handling st name beh args kwargs times durs).result =
      .error (.hyperManagerAPIError
        ("Failed to execute " ++ name ++ ": " ++ CircuitOpenError.str)) := by
  obtain ⟨hbc, hat, hws, hcb, hres⟩ :=
    invokeGo_open_reject name beh args kwargs times durs (3 / 10) t hnc 4 0 st
      (.error (.otherError "unreachable")) hopen hlast
      (fun i h1 h2 => htimes i (by omega))
  refine ⟨hbc, hat, hcb, ?_, hres (by norm_num)⟩
  simp only [execute_with_error_handling]
  rw [hws]
  norm_num [List.range_succ]

theorem C4_witness :
    (execute_with_error_handling C4cex "update_project"
        (fun _ => (.error (.otherError "boom") : Except Exc Nat)) [] []
        (fun _ => 110) (fun _ => 0)).attempts = 4 ∧
    (execute_with_error_handling C4cex "update_project"
        (fun _ => (.error (.otherError "boom") : Except Exc Nat)) [] []
        (fun _ => 110) (fun _ => 0)).backendCalls = 0 := by
  have h := C4_circuit_open_is_retried C4cex "update_project"
    (fun _ => (.error (.otherError "boom") : Except Exc Nat)) [] []
    (fun _ => 110) (fun _ => 0) 100 (by decide) rfl rfl
    (fun i _ => by show (110 : ℚ) - 100 ≤ 60; norm_num)
  exact ⟨h.2.1, h.1⟩

/-- Result of a run of the generic retry_on_failure decorator around an
arbitrary function: the value returned or exception finally raised, the
number of calls made to the wrapped function, and the waits slept. -/
structure RetryResult (E V : Type) where
  result : Except E V
  attempts : Nat
  waits : List ℚ

/-- The loop of retry_on_failure in isolation, over a wrapped function whose
outcome on the i-th call is f i: attempt is the loop index, the next
argument the iterations still available, and the last argument the recorded
last_exception. -/
def retryGo {E V : Type} (backoff_factor : ℚ) (f : Nat → Except E V) :
    Nat → Nat → Except E V → RetryResult E V
  | _, 0, last => ⟨last, 0, []⟩
  | attempt, r + 1, _ =>
      match f attempt with
      | .ok v => ⟨.ok v, 1, []⟩
      | .error e =>
          let rest := retryGo backoff_factor f (attempt + 1) r (.error e)
          let ws :=
            if r = 0 then rest.waits
            else (backoff_factor * 2 ^ attempt) :: rest.waits
          ⟨rest.result, 1 + rest.attempts, ws⟩

/-- retry_on_failure(max_retries, backoff_factor) applied to f. noneExc
stands for the initial None in last_exception; it is never surfaced because
the loop always runs at least one iteration. -/
def retry_on_failure {E V : Type} (max_retries : Nat) (backoff_factor : ℚ)
    (f : Nat → Except E V) (noneExc : E) : RetryResult E V :=
  retryGo backoff_factor f 0 (max_retries + 1) (.error noneExc)

theorem retryGo_succ {E V : Type} (bf : ℚ) (f : Nat → Except E V)
    (attempt r : Nat) (last : Except E V) :
    retryGo bf f attempt (r + 1) last =
      match f attempt with
      | .ok v => ⟨.ok v, 1, []⟩
      | .error e =>
          ⟨(retryGo bf f (attempt + 1) r (.error e)).result,
           1 + (retryGo bf f (attempt + 1) r (.error e)).attempts,
           if r = 0 then (retryGo bf f (attempt + 1) r (.error e)).waits
           else (bf * 2 ^ attempt) :: (retryGo bf f (attempt + 1) r (.error e)).waits⟩ :=
  rfl

theorem retryGo_attempts_le {E V : Type} (bf : ℚ) (f : Nat → Except E V) :
    ∀ (r attempt : Nat) (last : Except E V),
      (retryGo bf f attempt r last).attempts ≤ r := by
  intro r
  induction r with
  | zero => intro attempt last; simp [retryGo]
  | succ k ih =>
      intro attempt last
      cases hf : f attempt with
      | ok v => simp [retryGo, hf]
      | error e =>
          have := ih (attempt + 1) (.error e)
          simp only [retryGo, hf]
          omega

theorem retryGo_attempts_pos {E V : Type} (bf : ℚ) (f : Nat → Except E V)
    (r attempt : Nat) (last : Except E V) (hr : 0 < r) :
    0 < (retryGo bf f attempt r last).attempts := by
  cases r with
  | zero => omega
  | succ k =>
      cases hf : f attempt with
      | ok v => simp [retryGo, hf]
      | error e => simp [retryGo, hf]

/-- The waits slept are exactly backoff_factor * 2 ^ i for the loop indices
before the last attempt made. -/
theorem retryGo_waits {E V : Type} (bf : ℚ) (f : Nat → Except E V) :
    ∀ (r attempt : Nat) (last : Except E V),
      (retryGo bf f attempt r last).waits =
        (List.range ((retryGo bf f attempt r last).attempts - 1)).map
          (fun i => bf * 2 ^ (attempt + i)) := by
  intro r
  induction r with
  | zero => intro attempt last; simp [retryGo]
  | succ k ih =>
      intro attempt last
      cases hf : f attempt with
      | ok v => simp [retryGo, hf]
      | error e =>
          simp only [retryGo, hf]
          cases k with
          | zero => simp [retryGo]
          | succ m =>
              have hpos :=
                retryGo_attempts_pos bf f (m + 1) (attempt + 1) (.error e)
                  (Nat.succ_pos m)
              have hw := ih (attempt + 1) (.error e)
              have hne : ¬ (m + 1 = 0) := Nat.succ_ne_zero m
              simp only [hne, if_false, hw]
              have h1 : 1 + (retryGo bf f (attempt + 1) (m + 1)
                  (Except.error e)).attempts - 1 =
                  ((retryGo bf f (attempt + 1) (m + 1)
                    (Except.error e)).attempts - 1) + 1 := by omega
              rw [h1, List.range_succ_eq_map, List.map_cons, List.map_map]
              refine congrArg₂ List.cons (by simp) ?_
              refine List.map_congr_left (fun i _ => ?_)
              show bf * 2 ^ (attempt + 1 + i) = bf * 2 ^ (attempt + (i + 1))
              have hx : attempt + 1 + i = attempt + (i + 1) := by omega
              rw [hx]

/-- An all-failing run: every iteration runs, the exception of the final
attempt propagates, and the geometric waits are slept between attempts. -/
theorem retryGo_all_fail {E V : Type} (bf : ℚ) (f : Nat → Except E V)
    (es : Nat → E) :
    ∀ (r attempt : Nat) (e0 : E),
      (∀ i, attempt ≤ i → i < attempt + r → f i = .error (es i)) →
      0 < r →
      retryGo bf f attempt r (.error e0) =
        ⟨.error (es (attempt + r - 1)), r,
          (List.range (r - 1)).map (fun i => bf * 2 ^ (attempt + i))⟩ := by
  intro r
  induction r with
  | zero => intro attempt e0 _ h; omega
  | succ k ih =>
      intro attempt e0 hf _
      have hfa : f attempt = .error (es attempt) :=
        hf attempt (Nat.le_refl attempt) (by omega)
      cases k with
      | zero => simp [retryGo, hfa]
      | succ m =>
          have hrec := ih (attempt + 1) (es attempt)
            (fun i h1 h2 => hf i (by omega) (by omega)) (Nat.succ_pos m)
          rw [retryGo_succ, hfa]
          simp only [hrec]
          have hne : ¬ (m + 1 = 0) := Nat.succ_ne_zero m
          simp only [hne, if_false]
          congr 1
          · have hx : attempt + 1 + (m + 1) - 1 = attempt + (m + 1 + 1) - 1 := by
              omega
            rw [hx]
          · omega
          · have hr1 : m + 1 + 1 - 1 = m + 1 := by omega
            have hr2 : m + 1 - 1 = m := by omega
            rw [hr1, hr2, List.range_succ_eq_map, List.map_cons, List.map_map]
            refine congrArg₂ List.cons (by simp) ?_
            refine List.map_congr_left (fun i _ => ?_)
            show bf * 2 ^ (attempt + 1 + i) = bf * 2 ^ (attempt + (i + 1))
            have hx : attempt + 1 + i = attempt + (i + 1) := by omega
            rw [hx]

/-- Claim C8: retry semantics of retry_on_failure: an invocation makes at
most maxRetries additional calls after the first, sleeping
backoffFactor * 2 ^ attempt between attempts; a function failing on its
first two calls and succeeding on the third, run with maxRetries = 3,
succeeds overall after exactly 3 calls; and when every one of the
maxRetries + 1 calls fails, the exception of the last call propagates. -/
theorem C8_retry_semantics :
    (∀ (E V : Type) (mr : Nat) (bf : ℚ) (f : Nat → Except E V) (ne : E),
        (retry_on_failure mr bf f ne).attempts ≤ mr + 1 ∧
        (retry_on_failure mr bf f ne).waits =
          (List.range ((retry_on_failure mr bf f ne).attempts - 1)).map
            (fun i => bf * 2 ^ i)) ∧
    (∀ (E V : Type) (bf : ℚ) (f : Nat → Except E V) (ne e0 e1 : E) (v : V),
        f 0 = .error e0 → f 1 = .error e1 → f 2 = .ok v →
        (retry_on_failure 3 bf f ne).result = .ok v ∧
        (retry_on_failure 3 bf f ne).attempts = 3) ∧
    (∀ (E V : Type) (mr : Nat) (bf : ℚ) (f : Nat → Except E V) (ne : E)
        (es : Nat → E),
        (∀ i, i ≤ mr → f i = .error (es i)) →
        (retry_on_failure mr bf f ne).result = .error (es mr) ∧
        (retry_on_failure mr bf f ne).attempts = mr + 1) := by
  refine ⟨?_, ?_, ?_⟩
  · intro E V mr bf f ne
    refine ⟨retryGo_attempts_le bf f (mr + 1) 0 (.error ne), ?_⟩
    have hw := retryGo_waits bf f (mr + 1) 0 (.error ne)
    simpa [retry_on_failure] using hw
  · intro E V bf f ne e0 e1 v h0 h1 h2
    simp [retry_on_failure, retryGo_succ, h0, h1, h2]
  · intro E V mr bf f ne es hf
    have hall := retryGo_all_fail bf f es (mr + 1) 0 ne
      (fun i h1 h2 => hf i (by omega)) (Nat.succ_pos mr)
    have hx : 0 + (mr + 1) - 1 = mr := by omega
    rw [hx] at hall
    simp [retry_on_failure, hall]

theorem C8_witness :
    (retry_on_failure 3 (3 / 10)
        (fun n => match n with
          | 0 => .error "a"
          | 1 => .error "b"
          | _ => (.ok 7 : Except String Nat)) "none").result = .ok 7 ∧
    (retry_on_failure 3 (3 / 10)
        (fun n => match n with
          | 0 => .error "a"
          | 1 => .error "b"
          | _ => (.ok 7 : Except String Nat)) "none").attempts = 3 ∧
    (retry_on_failure 1 (3 / 10)
        (fun _ => (.error "z" : Except String Nat)) "none").result = .error "z" ∧
    (retry_on_failure 0 (3 / 10)
        (fun _ => (.error "z" : Except String Nat)) "none").attempts ≤ 1 := by
  have h2 := C8_retry_semantics.2.1 String Nat (3 / 10)
    (fun n => match n with
      | 0 => .error "a"
      | 1 => .error "b"
      | _ => (.ok 7 : Except String Nat)) "none" "a" "b" 7 rfl rfl rfl
  have h3 := C8_retry_semantics.2.2 String Nat 1 (3 / 10)
    (fun _ => (.error "z" : Except String Nat)) "none" (fun _ => "z")
    (fun i _ => rfl)
  have h1 := C8_retry_semantics.1 String Nat 0 (3 / 10)
    (fun _ => (.error "z" : Except String Nat)) "none"
  exact ⟨h2.1, h2.2, h3.1, h1.1⟩

/-- A successful call through a CLOSED breaker changes nothing. -/
theorem call_closed_ok {V : Type} (cb : CircuitBreaker) (now : ℚ) (v : V)
    (h : cb.state = .CLOSED) :
    cb.call now (Except.ok v : Except Exc V) = ⟨.ok v, cb, true⟩ := by
  have hno : cb.state ≠ .OPEN := by rw [h]; intro hx; cases hx
  have hnh : cb.state ≠ .HALF_OPEN := by rw [h]; intro hx; cases hx
  simp [CircuitBreaker.call, CircuitBreaker.preCall, hno, CircuitBreaker.afterTry, hnh]

/-- Looking up the key just assigned finds the new binding. -/
theorem lookup_assocSet {β : Type} (l : List (String × β)) (k : String) (v : β) :
    List.lookup k (assocSet l k v) = some v := by
  induction l with
  | nil => simp [assocSet, List.lookup]
  | cons p t ih =>
      obtain ⟨k0, v0⟩ := p
      by_cases h : k0 = k
      · simp [assocSet, h, List.lookup]
      · have h' : ¬ (k == k0) = true := by
          simpa [beq_iff_eq] using fun hx => h hx.symm
        simp [assocSet, h, List.lookup, h', ih]

/-- Storing with a nonzero explicit TTL stores expiry now + ttl. -/
theorem APICache.set_some {V : Type} (c : APICache V) (key : String) (value : V)
    (x now : ℚ) (hx : x ≠ 0) :
    c.set key value (some x) now =
      { c with cache := assocSet c.cache key ⟨value, now + x⟩ } := by
  simp [APICache.set, hx]

theorem ttl_ne_zero (name : String) :
    (if strContains name "list" then (300 : ℚ) else 60) ≠ 0 := by
  split <;> norm_num

/-- One unfolding of the retry loop of the invocation wrapper. -/
theorem invokeGo_succ {V : Type} (name : String) (beh : Nat → Except Exc V)
    (args : List String) (kwargs : List (String × String)) (times durs : Nat → ℚ)
    (bf : ℚ) (attempt r : Nat) (st : ClientState V) (last : Except Exc V) :
    invokeGo name beh args kwargs times durs bf attempt (r + 1) st last =
      match (executeOnce st name (beh attempt) args kwargs (times attempt)
          (durs attempt)).result with
      | .ok v =>
          ⟨.ok v,
           (executeOnce st name (beh attempt) args kwargs (times attempt)
             (durs attempt)).state,
           (executeOnce st name (beh attempt) args kwargs (times attempt)
             (durs attempt)).backendCalls, 1, []⟩
      | .error e =>
          ⟨(invokeGo name beh args kwargs times durs bf (attempt + 1) r
              (executeOnce st name (beh attempt) args kwargs (times attempt)
                (durs attempt)).state (.error e)).result,
           (invokeGo name beh args kwargs times durs bf (attempt + 1) r
              (executeOnce st name (beh attempt) args kwargs (times attempt)
                (durs attempt)).state (.error e)).state,
           (executeOnce st name (beh attempt) args kwargs (times attempt)
              (durs attempt)).backendCalls +
             (invokeGo name beh args kwargs times durs bf (attempt + 1) r
               (executeOnce st name (beh attempt) args kwargs (times attempt)
                 (durs attempt)).state (.error e)).backendCalls,
           1 + (invokeGo name beh args kwargs times durs bf (attempt + 1) r
               (executeOnce st name (beh attempt) args kwargs (times attempt)
                 (durs attempt)).state (.error e)).attempts,
           if r = 0 then
             (invokeGo name beh args kwargs times durs bf (attempt + 1) r
               (executeOnce st name (beh attempt) args kwargs (times attempt)
                 (durs attempt)).state (.error e)).waits
           else (bf * 2 ^ attempt) ::
             (invokeGo name beh args kwargs times durs bf (attempt + 1) r
               (executeOnce st name (beh attempt) args kwargs (times attempt)
                 (durs attempt)).state (.error e)).waits⟩ :=
  rfl

/-- A first attempt that succeeds ends the decorated invocation at once. -/
theorem invoke_first_ok {V : Type} (st : ClientState V) (name : String)
    (beh : Nat → Except Exc V) (args : List String)
    (kwargs : List (String × String)) (times durs : Nat → ℚ) (v : V)
    (h : (executeOnce st name (beh 0) args kwargs (times 0) (durs 0)).result =
      .ok v) :
    execute_with_error_handling st name beh args kwargs times durs =
      ⟨.ok v,
       (executeOnce st name (beh 0) args kwargs (times 0) (durs 0)).state,
       (executeOnce st name (beh 0) args kwargs (times 0) (durs 0)).backendCalls,
       1, []⟩ := by
  simp only [execute_with_error_handling]
  rw [invokeGo_succ, h]

/-- A live cache entry serves the call: only total_calls and cache_hits move,
with no backend invocation and no breaker interaction. -/
theorem executeOnce_cache_hit {V : Type} (st : ClientState V) (name : String)
    (beh : Except Exc V) (args : List String) (kwargs : List (String × String))
    (now dur : ℚ) (entry : CacheEntry V)
    (hc : is_cacheable_operation name = true)
    (hfound : List.lookup (generate_cache_key name args kwargs) st.cache.cache =
      some entry)
    (hlive : now < entry.expires) :
    executeOnce st name beh args kwargs now dur =
      { result := .ok entry.value
        state :=
          { st with
              metrics :=
                { st.metrics with
                    total_calls := st.metrics.total_calls + 1
                    cache_hits := st.metrics.cache_hits + 1 } }
        backendCalls := 0 } := by
  unfold executeOnce
  rw [hc]
  simp only [if_true]
  unfold APICache.get
  rw [hfound]
  simp only [if_pos hlive]

/-- A cacheable call that misses the cache and succeeds through a CLOSED
breaker on the backend: the result is stored with the list/other TTL and the
success metrics move. -/
theorem executeOnce_cacheable_backend_ok {V : Type} (st : ClientState V)
    (name : String) (v : V) (args : List String)
    (kwargs : List (String × String)) (now dur : ℚ)
    (hc : is_cacheable_operation name = true)
    (hmiss : List.lookup (generate_cache_key name args kwargs) st.cache.cache =
      none)
    (hcb : st.circuit_breaker.state = .CLOSED) :
    executeOnce st name (.ok v) args kwargs now dur =
      { result := .ok v
        state :=
          { cache :=
              { cache :=
                  assocSet st.cache.cache (generate_cache_key name args kwargs)
                    ⟨v, now + (if strContains name "list" then 300 else 60)⟩
                default_ttl := st.cache.default_ttl }
            circuit_breaker := st.circuit_breaker
            metrics :=
              { st.metrics with
                  total_calls := st.metrics.total_calls + 1
                  successful_calls := st.metrics.successful_calls + 1
                  average_response_time :=
                    (st.metrics.average_response_time *
                        (((st.metrics.successful_calls + 1 : Nat) : ℚ) - 1) + dur) /
                      ((st.metrics.successful_calls + 1 : Nat) : ℚ) } }
        backendCalls := 1 } := by
  unfold executeOnce
  rw [hc]
  simp only [if_true]
  unfold APICache.get
  rw [hmiss]
  unfold executeCore
  rw [call_closed_ok st.circuit_breaker now v hcb]
  simp only []
  rw [APICache.set_some _ _ _ _ _ (ttl_ne_zero name)]
  simp

/-- An expired cache entry behaves as a miss: the backend is invoked again. -/
theorem executeOnce_expired_backend_ok {V : Type} (st : ClientState V)
    (name : String) (w : V) (args : List String)
    (kwargs : List (String × String)) (now dur : ℚ) (entry : CacheEntry V)
    (hc : is_cacheable_operation name = true)
    (hfound : List.lookup (generate_cache_key name args kwargs) st.cache.cache =
      some entry)
    (hdead : entry.expires ≤ now)
    (hcb : st.circuit_breaker.state = .CLOSED) :
    (executeOnce st name (.ok w) args kwargs now dur).result = .ok w ∧
    (executeOnce st name (.ok w) args kwargs now dur).backendCalls = 1 := by
  have hnl : ¬ now < entry.expires := not_lt.mpr hdead
  unfold executeOnce
  rw [hc]
  simp only [if_true]
  unfold APICache.get
  rw [hfound]
  simp only [hnl, if_false]
  unfold executeCore
  rw [call_closed_ok st.circuit_breaker now w hcb]
  simp

/-- Claim C6: cache round-trip. For a cacheable operation invoked from a
state with no entry for its key and a CLOSED breaker: the first invocation
(backend succeeds at once) reaches the backend exactly once and stores the
result with TTL 300s when the name contains the substring "list" and 60s
otherwise; a second invocation with identical arguments before that TTL
expires returns the cached value with no backend call, one more cacheHit and
an untouched breaker, whatever the backend would do; and a third invocation
at or after expiry treats the entry as absent and reaches the backend
again. -/
theorem C6_cache_round_trip {V : Type} (st : ClientState V) (name : String)
    (beh1 beh2 beh3 : Nat → Except Exc V) (args : List String)
    (kwargs : List (String × String)) (durs1 durs2 durs3 : Nat → ℚ)
    (t1 t2 t3 : ℚ) (v w : V)
    (hc : is_cacheable_operation name = true)
    (hmiss : List.lookup (generate_cache_key name args kwargs) st.cache.cache =
      none)
    (hcb : st.circuit_breaker.state = .CLOSED)
    (hb1 : beh1 0 = .ok v) (hb3 : beh3 0 = .ok w)
    (ht2 : t2 < t1 + (if strContains name "list" then 300 else 60))
    (ht3 : t1 + (if strContains name "list" then 300 else 60) ≤ t3) :
    let r1 := execute_with_error_handling st name beh1 args kwargs
      (fun _ => t1) durs1
    let r2 := execute_with_error_handling r1.state name beh2 args kwargs
      (fun _ => t2) durs2
    let r3 := execute_with_error_handling r2.state name beh3 args kwargs
      (fun _ => t3) durs3
    (r1.result = .ok v ∧ r1.backendCalls = 1) ∧
    (r2.result = .ok v ∧ r2.backendCalls = 0 ∧
      r2.state.metrics.cache_hits = r1.state.metrics.cache_hits + 1 ∧
      r2.state.circuit_breaker = r1.state.circuit_breaker) ∧
    (r3.result = .ok w ∧ r3.backendCalls = 1) := by
  intro r1 r2 r3
  have he1 := executeOnce_cacheable_backend_ok st name v args kwargs t1
    (durs1 0) hc hmiss hcb
  have hfb1 : (executeOnce st name (beh1 0) args kwargs t1 (durs1 0)).result =
      .ok v := by
    rw [hb1, he1]
  have hr1 := invoke_first_ok st name beh1 args kwargs (fun _ => t1) durs1 v hfb1
  rw [hb1, he1] at hr1
  have hs1cache : r1.state.cache.cache =
      assocSet st.cache.cache (generate_cache_key name args kwargs)
        ⟨v, t1 + (if strContains name "list" then 300 else 60)⟩ := by
    show (execute_with_error_handling st name beh1 args kwargs (fun _ => t1)
      durs1).state.cache.cache = _
    rw [hr1]
  have hs1cb : r1.state.circuit_breaker = st.circuit_breaker := by
    show (execute_with_error_handling st name beh1 args kwargs (fun _ => t1)
      durs1).state.circuit_breaker = _
    rw [hr1]
  have hfound2 : List.lookup (generate_cache_key name args kwargs)
      r1.state.cache.cache =
      some ⟨v, t1 + (if strContains name "list" then 300 else 60)⟩ := by
    rw [hs1cache]
    exact lookup_assocSet _ _ _
  have he2 := executeOnce_cache_hit r1.state name (beh2 0) args kwargs t2
    (durs2 0) ⟨v, t1 + (if strContains name "list" then 300 else 60)⟩ hc
    hfound2 ht2
  have hfb2 : (executeOnce r1.state name (beh2 0) args kwargs t2
      (durs2 0)).result = .ok v := by
    rw [he2]
  have hr2 := invoke_first_ok r1.state name beh2 args kwargs (fun _ => t2)
    durs2 v hfb2
  rw [he2] at hr2
  have hs2cache : r2.state.cache.cache = r1.state.cache.cache := by
    show (execute_with_error_handling r1.state name beh2 args kwargs
      (fun _ => t2) durs2).state.cache.cache = _
    rw [hr2]
  have hs2cb : r2.state.circuit_breaker = r1.state.circuit_breaker := by
    show (execute_with_error_handling r1.state name beh2 args kwargs
      (fun _ => t2) durs2).state.circuit_breaker = _
    rw [hr2]
  have hs2hits : r2.state.metrics.cache_hits =
      r1.state.metrics.cache_hits + 1 := by
    show (execute_with_error_handling r1.state name beh2 args kwargs
      (fun _ => t2) durs2).state.metrics.cache_hits = _
    rw [hr2]
  have hcb3 : r2.state.circuit_breaker.state = .CLOSED := by
    rw [hs2cb, hs1cb]
    exact hcb
  have hfound3 : List.lookup (generate_cache_key name args kwargs)
      r2.state.cache.cache =
      some ⟨v, t1 + (if strContains name "list" then 300 else 60)⟩ := by
    rw [hs2cache, hs1cache]
    exact lookup_assocSet _ _ _
  have he3 := executeOnce_expired_backend_ok r2.state name w args kwargs t3
    (durs3 0) ⟨v, t1 + (if strContains name "list" then 300 else 60)⟩ hc
    hfound3 ht3 hcb3
  have hfb3 : (executeOnce r2.state name (beh3 0) args kwargs t3
      (durs3 0)).result = .ok w := by
    rw [hb3]
    exact he3.1
  have hr3 := invoke_first_ok r2.state name beh3 args kwargs (fun _ => t3)
    durs3 w hfb3
  refine ⟨⟨?_, ?_⟩, ⟨?_, ?_, hs2hits, hs2cb⟩, ?_, ?_⟩
  · show (execute_with_error_handling st name beh1 args kwargs (fun _ => t1)
      durs1).result = .ok v
    rw [hr1]
  · show (execute_with_error_handling st name beh1 args kwargs (fun _ => t1)
      durs1).backendCalls = 1
    rw [hr1]
  · show (execute_with_error_handling r1.state name beh2 args kwargs
      (fun _ => t2) durs2).result = .ok v
    rw [hr2]
  · show (execute_with_error_handling r1.state name beh2 args kwargs
      (fun _ => t2) durs2).backendCalls = 0
    rw [hr2]
  · show (execute_with_error_handling r2.state name beh3 args kwargs
      (fun _ => t3) durs3).result = .ok w
    rw [hr3]
  · show (execute_with_error_handling r2.state name beh3 args kwargs
      (fun _ => t3) durs3).backendCalls = 1
    rw [hr3, hb3]
    exact he3.2

theorem C6_witness :
    let r1 := execute_with_error_handling (freshClient Nat) "list_projects"
      (fun _ => .ok 42) [] [] (fun _ => 0) (fun _ => 0)
    let r2 := execute_with_error_handling r1.state "list_projects"
      (fun _ => .error (.otherError "down")) [] [] (fun _ => 100) (fun _ => 0)
    let r3 := execute_with_error_handling r2.state "list_projects"
      (fun _ => .ok 43) [] [] (fun _ => 300) (fun _ => 0)
    (r1.result = .ok 42 ∧ r1.backendCalls = 1) ∧
    (r2.result = .ok 42 ∧ r2.backendCalls = 0 ∧
      r2.state.metrics.cache_hits = r1.state.metrics.cache_hits + 1 ∧
      r2.state.circuit_breaker = r1.state.circuit_breaker) ∧
    (r3.result = .ok 43 ∧ r3.backendCalls = 1) :=
  C6_cache_round_trip (freshClient Nat) "list_projects" (fun _ => .ok 42)
    (fun _ => .error (.otherError "down")) (fun _ => .ok 43) [] []
    (fun _ => 0) (fun _ => 0) (fun _ => 0) 0 100 300 42 43
    (by decide) rfl rfl rfl rfl
    (by rw [show strContains "list_projects" "list" = true from rfl]; norm_num)
    (by rw [show strContains "list_projects" "list" = true from rfl]; norm_num)

/-- A call that returns a value did invoke the wrapped function. -/
theorem call_result_ok_invoked {V : Type} (cb : CircuitBreaker) (now : ℚ)
    (o : Except Exc V) (v : V) (h : (cb.call now o).result = .ok v) :
    (cb.call now o).invoked = true := by
  unfold CircuitBreaker.call at h ⊢
  cases hpre : cb.preCall now with
  | error e =>
      rw [hpre] at h
      simp at h
  | ok cb1 => rfl

/-- Metric deltas of the guarded core: a returned value means one backend
invocation and one more successful call; a raised exception means one more
failed call; total_calls and cache_hits do not move here. -/
theorem executeCore_metrics {V : Type} (st : ClientState V) (name : String)
    (beh : Except Exc V) (cacheable : Bool) (key : String) (now dur : ℚ) :
    (executeCore st name beh cacheable key now dur).state.metrics.total_calls =
      st.metrics.total_calls ∧
    (executeCore st name beh cacheable key now dur).state.metrics.cache_hits =
      st.metrics.cache_hits ∧
    (∀ v, (executeCore st name beh cacheable key now dur).result = .ok v →
      (executeCore st name beh cacheable key now
          dur).state.metrics.successful_calls =
        st.metrics.successful_calls + 1 ∧
      (executeCore st name beh cacheable key now dur).state.metrics.failed_calls =
        st.metrics.failed_calls ∧
      (executeCore st name beh cacheable key now dur).backendCalls = 1) ∧
    (∀ e, (executeCore st name beh cacheable key now dur).result = .error e →
      (executeCore st name beh cacheable key now
          dur).state.metrics.successful_calls = st.metrics.successful_calls ∧
      (executeCore st name beh cacheable key now dur).state.metrics.failed_calls =
        st.metrics.failed_calls + 1) := by
  unfold executeCore
  dsimp only
  cases hco : (st.circuit_breaker.call now beh).result with
  | ok v =>
      have hinv := call_result_ok_invoked st.circuit_breaker now beh v hco
      refine ⟨rfl, rfl, fun w hw => ⟨rfl, rfl, by simp [hinv]⟩, fun e he => ?_⟩
      simp at he
  | error e =>
      refine ⟨rfl, rfl, fun w hw => ?_, fun e2 he2 => ⟨rfl, rfl⟩⟩
      simp at hw

/-- Metric deltas of one entry into the wrapped body: total_calls always
moves by one; a value obtained from the backend adds one successful call; a
raised exception adds one failed call. -/
theorem executeOnce_metrics {V : Type} (st : ClientState V) (name : String)
    (beh : Except Exc V) (args : List String) (kwargs : List (String × String))
    (now dur : ℚ) :
    (executeOnce st name beh args kwargs now dur).state.metrics.total_calls =
      st.metrics.total_calls + 1 ∧
    (∀ v, (executeOnce st name beh args kwargs now dur).result = .ok v →
      (executeOnce st name beh args kwargs now dur).backendCalls = 1 →
      (executeOnce st name beh args kwargs now
          dur).state.metrics.successful_calls =
        st.metrics.successful_calls + 1 ∧
      (executeOnce st name beh args kwargs now dur).state.metrics.failed_calls =
        st.metrics.failed_calls) ∧
    (∀ e, (executeOnce st name beh args kwargs now dur).result = .error e →
      (executeOnce st name beh args kwargs now
          dur).state.metrics.successful_calls = st.metrics.successful_calls ∧
      (executeOnce st name beh args kwargs now dur).state.metrics.failed_calls =
        st.metrics.failed_calls + 1) := by
  unfold executeOnce
  dsimp only
  split
  · cases hg : (st.cache.get (generate_cache_key name args kwargs) now).1 with
    | some v =>
        refine ⟨rfl, fun w hw hbc => absurd hbc (by simp), fun e he => ?_⟩
        simp at he
    | none =>
        have hcore := executeCore_metrics
          { cache := (st.cache.get (generate_cache_key name args kwargs) now).2
            circuit_breaker := st.circuit_breaker
            metrics :=
              { st.metrics with total_calls := st.metrics.total_calls + 1 } }
          name beh true (generate_cache_key name args kwargs) now dur
        exact ⟨hcore.1,
          fun v hv _ => ⟨(hcore.2.2.1 v hv).1, (hcore.2.2.1 v hv).2.1⟩,
          fun e he => hcore.2.2.2 e he⟩
  · have hcore := executeCore_metrics
      { cache := st.cache
        circuit_breaker := st.circuit_breaker
        metrics := { st.metrics with total_calls := st.metrics.total_calls + 1 } }
      name beh false "" now dur
    exact ⟨hcore.1,
      fun v hv _ => ⟨(hcore.2.2.1 v hv).1, (hcore.2.2.1 v hv).2.1⟩,
      fun e he => hcore.2.2.2 e he⟩

theorem invokeGo_attempts_pos {V : Type} (name : String) (beh : Nat → Except Exc V)
    (args : List String) (kwargs : List (String × String)) (times durs : Nat → ℚ)
    (bf : ℚ) (r attempt : Nat) (st : ClientState V) (last : Except Exc V)
    (hr : 0 < r) :
    0 < (invokeGo name beh args kwargs times durs bf attempt r st last).attempts := by
  cases r with
  | zero => omega
  | succ k =>
      rw [invokeGo_succ]
      cases hx : (executeOnce st name (beh attempt) args kwargs (times attempt)
          (durs attempt)).result with
      | ok v => exact Nat.one_pos
      | error e => exact Nat.lt_of_lt_of_le Nat.one_pos (Nat.le_add_right 1 _)

/-- Metric deltas of an invocation whose every attempt fails: each attempt
adds one total call and one failed call, successes do not move. -/
theorem invokeGo_error_metrics {V : Type} (name : String) (beh : Nat → Except Exc V)
    (args : List String) (kwargs : List (String × String)) (times durs : Nat → ℚ)
    (bf : ℚ) :
    ∀ (r attempt : Nat) (st : ClientState V) (e0 e : Exc),
      (invokeGo name beh args kwargs times durs bf attempt r st
        (.error e0)).result = .error e →
      (invokeGo name beh args kwargs times durs bf attempt r st
          (.error e0)).state.metrics.total_calls =
        st.metrics.total_calls +
          (invokeGo name beh args kwargs times durs bf attempt r st
            (.error e0)).attempts ∧
      (invokeGo name beh args kwargs times durs bf attempt r st
          (.error e0)).state.metrics.successful_calls =
        st.metrics.successful_calls ∧
      (invokeGo name beh args kwargs times durs bf attempt r st
          (.error e0)).state.metrics.failed_calls =
        st.metrics.failed_calls +
          (invokeGo name beh args kwargs times durs bf attempt r st
            (.error e0)).attempts := by
  intro r
  induction r with
  | zero =>
      intro attempt st e0 e _
      simp [invokeGo]
  | succ k ih =>
      intro attempt st e0 e h
      rw [invokeGo_succ] at h ⊢
      cases hx : (executeOnce st name (beh attempt) args kwargs (times attempt)
          (durs attempt)).result with
      | ok v =>
          rw [hx] at h
          simp at h
      | error e1 =>
          rw [hx] at h
          have hone := executeOnce_metrics st name (beh attempt) args kwargs
            (times attempt) (durs attempt)
          have h1 := hone.1
          have h2 := hone.2.2 e1 hx
          have hrec := ih (attempt + 1)
            (executeOnce st name (beh attempt) args kwargs (times attempt)
              (durs attempt)).state e1 e h
          refine ⟨?_, ?_, ?_⟩
          · dsimp only
            rw [hrec.1, h1]
            omega
          · dsimp only
            rw [hrec.2.1, h2.1]
          · dsimp only
            rw [hrec.2.2, h2.2]
            omega

/-- Metric deltas of one decorated invocation, in the two regimes the run
hypothesis of the metrics claim uses: a first-attempt backend success, and an
overall failure. -/
theorem invoke_metrics_cases {V : Type} (st : ClientState V) (name : String)
    (beh : Nat → Except Exc V) (args : List String)
    (kwargs : List (String × String)) (times durs : Nat → ℚ) :
    (∀ v, (execute_with_error_handling st name beh args kwargs times durs).result =
        .ok v →
      (execute_with_error_handling st name beh args kwargs times durs).attempts = 1 →
      (execute_with_error_handling st name beh args kwargs times
        durs).backendCalls = 1 →
      (execute_with_error_handling st name beh args kwargs times
          durs).state.metrics.total_calls = st.metrics.total_calls + 1 ∧
      (execute_with_error_handling st name beh args kwargs times
          durs).state.metrics.successful_calls =
        st.metrics.successful_calls + 1 ∧
      (execute_with_error_handling st name beh args kwargs times
          durs).state.metrics.failed_calls = st.metrics.failed_calls) ∧
    (∀ e, (execute_with_error_handling st name beh args kwargs times durs).result =
        .error e →
      (execute_with_error_handling st name beh args kwargs times
          durs).state.metrics.total_calls =
        st.metrics.total_calls +
          (execute_with_error_handling st name beh args kwargs times
            durs).attempts ∧
      (execute_with_error_handling st name beh args kwargs times
          durs).state.metrics.successful_calls = st.metrics.successful_calls ∧
      (execute_with_error_handling st name beh args kwargs times
          durs).state.metrics.failed_calls =
        st.metrics.failed_calls +
          (execute_with_error_handling st name beh args kwargs times
            durs).attempts) := by
  constructor
  · intro v hres hat hbc
    simp only [execute_with_error_handling] at hres hat hbc ⊢
    rw [invokeGo_succ] at hres hat hbc ⊢
    cases hx : (executeOnce st name (beh 0) args kwargs (times 0)
        (durs 0)).result with
    | ok w =>
        rw [hx] at hres hat hbc
        have hone := executeOnce_metrics st name (beh 0) args kwargs (times 0)
          (durs 0)
        exact ⟨hone.1, (hone.2.1 w hx hbc).1, (hone.2.1 w hx hbc).2⟩
    | error e1 =>
        rw [hx] at hat
        have hpos := invokeGo_attempts_pos name beh args kwargs times durs
          (3 / 10) 3 (0 + 1)
          (executeOnce st name (beh 0) args kwargs (times 0) (durs 0)).state
          (.error e1) (by norm_num)
        dsimp only at hat
        exfalso
        omega
  · intro e hres
    simp only [execute_with_error_handling] at hres ⊢
    exact invokeGo_error_metrics name beh args kwargs times durs (3 / 10) (3 + 1)
      0 st (.otherError "unreachable") e hres

/-- Whether an invocation trace records an overall success. -/
def okSummary {V : Type} (s : InvSummary V) : Bool :=
  match s.result with
  | .ok _ => true
  | .error _ => false

theorem runAll_cons {V : Type} (st : ClientState V) (s : InvSpec V)
    (rest : List (InvSpec V)) :
    runAll st (s :: rest) =
      ((runAll (execute_with_error_handling st s.operation_name s.beh s.args
          s.kwargs s.times s.durs).state rest).1,
        ⟨(execute_with_error_handling st s.operation_name s.beh s.args s.kwargs
            s.times s.durs).result,
          (execute_with_error_handling st s.operation_name s.beh s.args s.kwargs
            s.times s.durs).attempts,
          (execute_with_error_handling st s.operation_name s.beh s.args s.kwargs
            s.times s.durs).backendCalls⟩ ::
          (runAll (execute_with_error_handling st s.operation_name s.beh s.args
            s.kwargs s.times s.durs).state rest).2) :=
  rfl

/-- Counter totals of a run in which every invocation either succeeds on its
first attempt through the backend or fails after its 4 attempts. -/
theorem runAll_metrics {V : Type} (specs : List (InvSpec V)) :
    ∀ st : ClientState V,
      (∀ s ∈ (runAll st specs).2,
        ((∃ v, s.result = .ok v) ∧ s.attempts = 1 ∧ s.backendCalls = 1) ∨
        ((∃ e, s.result = .error e) ∧ s.attempts = 4)) →
      (runAll st specs).1.metrics.total_calls =
        st.metrics.total_calls + (runAll st specs).2.countP okSummary +
          4 * (runAll st specs).2.countP (fun s => ! okSummary s) ∧
      (runAll st specs).1.metrics.successful_calls =
        st.metrics.successful_calls + (runAll st specs).2.countP okSummary ∧
      (runAll st specs).1.metrics.failed_calls =
        st.metrics.failed_calls +
          4 * (runAll st specs).2.countP (fun s => ! okSummary s) := by
  induction specs with
  | nil =>
      intro st _
      simp [runAll]
  | cons s rest ih =>
      intro st h
      rw [runAll_cons] at h ⊢
      have hhead := h _ (List.mem_cons_self _ _)
      have htail := fun x hx => h x (List.mem_cons_of_mem _ hx)
      have hrec := ih (execute_with_error_handling st s.operation_name s.beh
        s.args s.kwargs s.times s.durs).state htail
      have hinv := invoke_metrics_cases st s.operation_name s.beh s.args
        s.kwargs s.times s.durs
      rcases hhead with ⟨⟨v, hv⟩, hat, hbc⟩ | ⟨⟨e, he⟩, hat⟩
      · dsimp only at hv hat hbc
        have hd := hinv.1 v hv hat hbc
        have hok : okSummary
            (⟨(execute_with_error_handling st s.operation_name s.beh s.args
                s.kwargs s.times s.durs).result,
              (execute_with_error_handling st s.operation_name s.beh s.args
                s.kwargs s.times s.durs).attempts,
              (execute_with_error_handling st s.operation_name s.beh s.args
                s.kwargs s.times s.durs).backendCalls⟩ : InvSummary V) = true := by
          simp [okSummary, hv]
        simp only [List.countP_cons, hok]
        refine ⟨?_, ?_, ?_⟩
        · rw [hrec.1, hd.1]
          simp
          try omega
        · rw [hrec.2.1, hd.2.1]
          simp
          try omega
        · rw [hrec.2.2, hd.2.2]
          simp
      · dsimp only at he hat
        have hd := hinv.2 e he
        have hok : okSummary
            (⟨(execute_with_error_handling st s.operation_name s.beh s.args
                s.kwargs s.times s.durs).result,
              (execute_with_error_handling st s.operation_name s.beh s.args
                s.kwargs s.times s.durs).attempts,
              (execute_with_error_handling st s.operation_name s.beh s.args
                s.kwargs s.times s.durs).backendCalls⟩ : InvSummary V) = false := by
          simp [okSummary, he]
        simp only [List.countP_cons, hok]
        refine ⟨?_, ?_, ?_⟩
        · rw [hrec.1, hd.1, hat]
          simp
          try omega
        · rw [hrec.2.1, hd.2.1]
          simp
        · rw [hrec.2.2, hd.2.2, hat]
          simp
          try omega

theorem runAll_length {V : Type} (specs : List (InvSpec V)) :
    ∀ st : ClientState V, (runAll st specs).2.length = specs.length := by
  induction specs with
  | nil => intro st; simp [runAll]
  | cons s rest ih =>
      intro st
      rw [runAll_cons]
      simp [ih]

theorem countP_ok_add_not {V : Type} (l : List (InvSummary V)) :
    l.countP okSummary + l.countP (fun s => ! okSummary s) = l.length := by
  induction l with
  | nil => simp
  | cons a t ih =>
      simp only [List.countP_cons, List.length_cons]
      by_cases h : okSummary a = true
      · simp only [h]
        simp
        omega
      · have h' : okSummary a = false := by
          revert h
          cases okSummary a <;> simp
        simp only [h']
        simp
        omega

/-- Claim C9 (amended): the counters count entries into the wrapped body, one
per attempt, not one per caller-level invocation. After a run from a fresh
client in which every invocation either succeeds on its first backend
attempt (N of them) or exhausts its 4 attempts (M of them),
totalCalls = N + 4M, successfulCalls = N, failedCalls = 4M, and
successRatePercent = round(N / (N + 4M) * 100, 2). -/
theorem C9_success_rate_counts_attempts {V : Type} (specs : List (InvSpec V))
    (h : ∀ s ∈ (runAll (freshClient V) specs).2,
        ((∃ v, s.result = .ok v) ∧ s.attempts = 1 ∧ s.backendCalls = 1) ∨
        ((∃ e, s.result = .error e) ∧ s.attempts = 4))
    (hne : specs ≠ []) :
    (runAll (freshClient V) specs).1.metrics.total_calls =
      (runAll (freshClient V) specs).2.countP okSummary +
        4 * (runAll (freshClient V) specs).2.countP (fun s => ! okSummary s) ∧
    (runAll (freshClient V) specs).1.metrics.successful_calls =
      (runAll (freshClient V) specs).2.countP okSummary ∧
    (runAll (freshClient V) specs).1.metrics.failed_calls =
      4 * (runAll (freshClient V) specs).2.countP (fun s => ! okSummary s) ∧
    (get_metrics (runAll (freshClient V) specs).1).success_rate_percent =
      pyRound2 ((((runAll (freshClient V) specs).2.countP okSummary : ℚ)) /
        (((runAll (freshClient V) specs).2.countP okSummary : ℚ) +
          4 * ((runAll (freshClient V) specs).2.countP
            (fun s => ! okSummary s) : ℚ)) * 100) := by
  obtain ⟨h1, h2, h3⟩ := runAll_metrics specs (freshClient V) h
  have hT : (runAll (freshClient V) specs).1.metrics.total_calls =
      (runAll (freshClient V) specs).2.countP okSummary +
        4 * (runAll (freshClient V) specs).2.countP (fun s => ! okSummary s) := by
    simpa [freshClient] using h1
  have hS : (runAll (freshClient V) specs).1.metrics.successful_calls =
      (runAll (freshClient V) specs).2.countP okSummary := by
    simpa [freshClient] using h2
  have hF : (runAll (freshClient V) specs).1.metrics.failed_calls =
      4 * (runAll (freshClient V) specs).2.countP (fun s => ! okSummary s) := by
    simpa [freshClient] using h3
  refine ⟨hT, hS, hF, ?_⟩
  have hlen : (runAll (freshClient V) specs).2.length = specs.length :=
    runAll_length specs (freshClient V)
  have hlenpos : 0 < specs.length := by
    cases specs with
    | nil => exact absurd rfl hne
    | cons a t => simp
  have hcnt := countP_ok_add_not (runAll (freshClient V) specs).2
  have hpos : 0 < (runAll (freshClient V) specs).1.metrics.total_calls := by
    rw [hT]
    omega
  unfold get_metrics
  dsimp only
  rw [if_pos hpos, hT, hS]
  congr 1
  push_cast
  ring

/-- A run of one first-try success and one exhausted failure against a fresh
client, on a non-cacheable operation. -/
def C9specs : List (InvSpec Nat) :=
  [⟨"create_project", fun _ => .ok 1, [], [], fun _ => 0, fun _ => 0⟩,
   ⟨"create_project", fun _ => .error (.otherError "x"), [], [],
     fun _ => 0, fun _ => 0⟩]

/-- Claim C9 counterexample: after N = 1 overall-successful invocation and
M = 1 overall-failed invocation, the snapshot reports
successRatePercent = 20 (the failed invocation entered the counted body 4
times, so totalCalls = 5 and successfulCalls = 1), not
round(N / (N + M) * 100, 2) = 50 as claimed. -/
theorem C9_counterexample :
    (get_metrics (runAll (freshClient Nat) C9specs).1).success_rate_percent =
      20 ∧
    pyRound2 ((1 : ℚ) / (1 + 1) * 100) = 50 ∧
    ¬ (get_metrics (runAll (freshClient Nat) C9specs).1).success_rate_percent =
        pyRound2 ((1 : ℚ) / (1 + 1) * 100) := by
  have htot : (runAll (freshClient Nat) C9specs).1.metrics.total_calls = 5 := rfl
  have hsucc : (runAll (freshClient Nat) C9specs).1.metrics.successful_calls = 1 :=
    rfl
  have h1 : (get_metrics (runAll (freshClient Nat) C9specs).1).success_rate_percent
      = 20 := by
    unfold get_metrics
    dsimp only
    rw [htot, hsucc, if_pos (by norm_num : (0 : ℕ) < 5)]
    have hx : ((1 : ℕ) : ℚ) / ((5 : ℕ) : ℚ) * 100 * 100 = 2000 := by norm_num
    simp only [pyRound2, roundHalfEven, hx]
    norm_num
  have h2 : pyRound2 ((1 : ℚ) / (1 + 1) * 100) = 50 := by
    have hx : (1 : ℚ) / (1 + 1) * 100 * 100 = 5000 := by norm_num
    simp only [pyRound2, roundHalfEven, hx]
    norm_num
  refine ⟨h1, h2, ?_⟩
  rw [h1, h2]
  norm_num

theorem C9_witness :
    (runAll (freshClient Nat) C9specs).1.metrics.total_calls =
      (runAll (freshClient Nat) C9specs).2.countP okSummary +
        4 * (runAll (freshClient Nat) C9specs).2.countP
          (fun s => ! okSummary s) ∧
    (get_metrics (runAll (freshClient Nat) C9specs).1).success_rate_percent =
      pyRound2 ((((runAll (freshClient Nat) C9specs).2.countP okSummary : ℚ)) /
        (((runAll (freshClient Nat) C9specs).2.countP okSummary : ℚ) +
          4 * ((runAll (freshClient Nat) C9specs).2.countP
            (fun s => ! okSummary s) : ℚ)) * 100) := by
  have htr : (runAll (freshClient Nat) C9specs).2 =
      [⟨.ok 1, 1, 1⟩,
       ⟨.error (.hyperManagerAPIError "Failed to execute create_project: x"),
         4, 4⟩] := rfl
  have hh : ∀ s ∈ (runAll (freshClient Nat) C9specs).2,
      ((∃ v, s.result = .ok v) ∧ s.attempts = 1 ∧ s.backendCalls = 1) ∨
      ((∃ e, s.result = .error e) ∧ s.attempts = 4) := by
    rw [htr]
    intro s hs
    simp only [List.mem_cons, List.not_mem_nil, or_false] at hs
    rcases hs with rfl | rfl
    · exact Or.inl ⟨⟨1, rfl⟩, rfl, rfl⟩
    · exact Or.inr ⟨⟨_, rfl⟩, rfl⟩
  have hmain := C9_success_rate_counts_attempts C9specs hh
    (by simp [C9specs])
  exact ⟨hmain.1, hmain.2.2.2⟩

/-- A registered tool of mcp/registry.py. The input schema is kept only
through the required parameter list derived from it at registration; the
handler is the registered callable, which may raise. -/
structure ToolDefinition (V : Type) where
  name : String
  description : String
  required_params : List String
  handler : List (String × V) → Except Exc V

/-- ToolRegistry: the name-to-definition dict. -/
structure ToolRegistry (V : Type) where
  tools : List (String × ToolDefinition V)

/-- ToolRegistry.get_tool: raises ToolNotFoundError when absent. -/
def ToolRegistry.get_tool {V : Type} (reg : ToolRegistry V) (name : String) :
    Except Exc (ToolDefinition V) :=
  match List.lookup name reg.tools with
  | none => .error (.toolNotFoundError name)
  | some td => .ok td

/-- The membership test (param not in arguments) on the arguments dict. -/
def argsHasKey {V : Type} (arguments : List (String × V)) (param : String) : Bool :=
  arguments.any (fun kv => kv.1 == param)

/-- str() of a Python list of strings, as interpolated into the message. -/
def pyListRepr (l : List String) : String :=
  "[" ++ String.intercalate ", " (l.map (fun s => "\x27" ++ s ++ "\x27")) ++ "]"

/-- ToolRegistry.validate_parameters: collect every required parameter
absent from the arguments, in order, and raise ValidationError carrying the
whole list when it is nonempty. -/
def ToolRegistry.validate_parameters {V : Type} (reg : ToolRegistry V)
    (tool_name : String) (arguments : List (String × V)) : Except Exc Unit :=
  match reg.get_tool tool_name with
  | .error e => .error e
  | .ok td =>
      if td.required_params.filter (fun p => ! argsHasKey arguments p) ≠ [] then
        .error (.validationError
          ("Missing required parameters for tool \x27" ++ tool_name ++ "\x27: " ++
            pyListRepr (td.required_params.filter
              (fun p => ! argsHasKey arguments p)))
          (td.required_params.filter (fun p => ! argsHasKey arguments p)))
      else
        .ok ()

structure TextContent where
  type : String
  text : String
deriving DecidableEq, Repr

/-- The MCP CallToolResult envelope as handlers.py builds it. -/
structure CallToolResult where
  content : List TextContent
  isError : Bool
deriving DecidableEq, Repr

/-- MCPHandlers._create_success_result; json.dumps is abstracted by dumps. -/
def create_success_result {V : Type} (dumps : V → String) (result : V) :
    CallToolResult :=
  { content := [{ type := "text", text := dumps result }], isError := false }

/-- MCPHandlers._create_error_result. -/
def create_error_result (error_message : String) : CallToolResult :=
  { content := [{ type := "text", text := error_message }], isError := true }

/-- Which exceptions the first except clause
(except (ValidationError, ToolNotFoundError)) matches, by class. -/
def isCaughtByFirstExcept : Exc → Bool
  | .validationError _ _ => true
  | .toolNotFoundError _ => true
  | _ => false

/-- MCPHandlers.call_tool: validate, look the tool up, run the handler, and
convert any exception into an error envelope; exceptions other than
ValidationError and ToolNotFoundError get the Tool execution failed prefix. -/
def call_tool {V : Type} (dumps : V → String) (reg : ToolRegistry V)
    (name : String) (arguments : Option (List (String × V))) : CallToolResult :=
  let args := arguments.getD []
  let body : Except Exc V :=
    match reg.validate_parameters name args with
    | .error e => .error e
    | .ok _ =>
        match reg.get_tool name with
        | .error e => .error e
        | .ok td => td.handler args
  match body with
  | .ok r => create_success_result dumps r
  | .error e =>
      if isCaughtByFirstExcept e then create_error_result e.str
      else create_error_result ("Tool execution failed: " ++ e.str)

theorem argsHasKey_iff {V : Type} (arguments : List (String × V)) (p : String) :
    argsHasKey arguments p = true ↔ p ∈ arguments.map Prod.fst := by
  simp only [argsHasKey, List.any_eq_true, List.mem_map, beq_iff_eq]

/-- Claim C2: validate fails with ToolNotFound for an unregistered name;
succeeds when no required parameter is missing; and otherwise fails with a
ValidationError whose missing_params is exactly the set of ALL required
parameters absent from the arguments, not just the first one found. -/
theorem C2_validate_collects_all_missing {V : Type} (reg : ToolRegistry V)
    (name : String) (arguments : List (String × V)) :
    (List.lookup name reg.tools = none →
      reg.validate_parameters name arguments = .error (.toolNotFoundError name)) ∧
    (∀ td, List.lookup name reg.tools = some td →
      ((∀ p ∈ td.required_params, p ∈ arguments.map Prod.fst) →
        reg.validate_parameters name arguments = .ok ()) ∧
      (∀ p0, p0 ∈ td.required_params → p0 ∉ arguments.map Prod.fst →
        ∃ msg ms, reg.validate_parameters name arguments =
            .error (.validationError msg ms) ∧
          ∀ p, p ∈ ms ↔ (p ∈ td.required_params ∧ p ∉ arguments.map Prod.fst))) := by
  constructor
  · intro h
    simp [ToolRegistry.validate_parameters, ToolRegistry.get_tool, h]
  · intro td h
    have hget : reg.get_tool name = .ok td := by
      simp [ToolRegistry.get_tool, h]
    constructor
    · intro hall
      have hm : td.required_params.filter (fun p => ! argsHasKey arguments p) = [] := by
        rw [List.filter_eq_nil_iff]
        intro p hp
        have hmem := hall p hp
        rw [← argsHasKey_iff arguments p] at hmem
        simp [hmem]
      simp [ToolRegistry.validate_parameters, hget, hm]
    · intro p0 hp0 hnp0
      have hp0f : p0 ∈ td.required_params.filter (fun p => ! argsHasKey arguments p) := by
        rw [List.mem_filter]
        refine ⟨hp0, ?_⟩
        have : ¬ argsHasKey arguments p0 = true := by
          rw [argsHasKey_iff]
          exact hnp0
        simp [this]
      have hne : td.required_params.filter (fun p => ! argsHasKey arguments p) ≠ [] := by
        intro hnil
        rw [hnil] at hp0f
        simp at hp0f
      refine ⟨"Missing required parameters for tool \x27" ++ name ++ "\x27: " ++
          pyListRepr (td.required_params.filter (fun p => ! argsHasKey arguments p)),
        td.required_params.filter (fun p => ! argsHasKey arguments p), ?_, ?_⟩
      · simp only [ToolRegistry.validate_parameters, hget]
        rw [if_pos hne]
      · intro p
        rw [List.mem_filter]
        constructor
        · rintro ⟨h1, h2⟩
          refine ⟨h1, ?_⟩
          rw [← argsHasKey_iff arguments p]
          simp at h2
          simp [h2]
        · rintro ⟨h1, h2⟩
          refine ⟨h1, ?_⟩
          rw [← argsHasKey_iff arguments p] at h2
          simp at h2
          simp [h2]

/-- The example registry used by the validation and dispatch witnesses. -/
def reg0 : ToolRegistry Nat :=
  ⟨[("echo", ⟨"echo", "Echo a message", ["msg", "id"], fun _ => .ok 0⟩)]⟩

theorem C2_witness :
    reg0.validate_parameters "missing_tool" [] =
      .error (.toolNotFoundError "missing_tool") ∧
    reg0.validate_parameters "echo" [("msg", 1), ("id", 2)] = .ok () ∧
    (∃ msg ms, reg0.validate_parameters "echo" [("msg", 1)] =
        .error (.validationError msg ms) ∧
      ∀ p, p ∈ ms ↔
        (p ∈ ["msg", "id"] ∧ p ∉ ([(("msg" : String), (1 : Nat))].map Prod.fst))) := by
  refine ⟨(C2_validate_collects_all_missing reg0 "missing_tool" []).1 rfl, ?_, ?_⟩
  · exact ((C2_validate_collects_all_missing reg0 "echo"
      [("msg", 1), ("id", 2)]).2 _ rfl).1 (by decide)
  · obtain ⟨msg, ms, hv, hiff⟩ := ((C2_validate_collects_all_missing reg0 "echo"
      [("msg", 1)]).2 _ rfl).2 "id" (by decide) (by decide)
    exact ⟨msg, ms, hv, fun p => hiff p⟩

/-- Claim C3 counterexample: a handler that itself raises ToolNotFoundError
is caught by the first except clause, so dispatch returns the bare str(e)
envelope instead of the claimed "Tool execution failed: <message>"; the
claim that handler failures always use the prefixed message is false. -/
def C3reg : ToolRegistry Nat :=
  ⟨[("echo", ⟨"echo", "Echo", [], fun _ => .error (.toolNotFoundError "ghost")⟩)]⟩

theorem C3_counterexample :
    (call_tool toString C3reg "echo" (some [])).isError = true ∧
    call_tool toString C3reg "echo" (some []) =
      create_error_result "Tool \x27ghost\x27 not found" ∧
    ¬ call_tool toString C3reg "echo" (some []) =
        create_error_result
          ("Tool execution failed: Tool \x27ghost\x27 not found") := by
  refine ⟨rfl, rfl, ?_⟩
  intro h
  have hcontr := (rfl : call_tool toString C3reg "echo" (some []) =
    create_error_result "Tool \x27ghost\x27 not found").symm.trans h
  revert hcontr
  decide

/-- Claim C3 (amended): dispatch never raises for the documented failure
modes and always returns an envelope with isError = true carrying a
human-readable message: the ToolNotFound message for an unregistered name,
the ValidationError message for missing parameters, and for a handler
exception the message "Tool execution failed: <str(e)>" unless the
exception is itself a ValidationError or ToolNotFoundError, which the first
except clause converts to its bare str(e). -/
theorem C3_dispatch_error_envelopes {V : Type} (dumps : V → String)
    (reg : ToolRegistry V) (name : String)
    (arguments : Option (List (String × V))) :
    (List.lookup name reg.tools = none →
      call_tool dumps reg name arguments =
        create_error_result (Exc.toolNotFoundError name).str ∧
      (call_tool dumps reg name arguments).isError = true) ∧
    (∀ m ms, reg.validate_parameters name (arguments.getD []) =
        .error (.validationError m ms) →
      call_tool dumps reg name arguments = create_error_result m ∧
      (call_tool dumps reg name arguments).isError = true) ∧
    (∀ td, List.lookup name reg.tools = some td →
      reg.validate_parameters name (arguments.getD []) = .ok () →
      ∀ e, td.handler (arguments.getD []) = .error e →
        (call_tool dumps reg name arguments).isError = true ∧
        (isCaughtByFirstExcept e = false →
          call_tool dumps reg name arguments =
            create_error_result ("Tool execution failed: " ++ e.str)) ∧
        (isCaughtByFirstExcept e = true →
          call_tool dumps reg name arguments = create_error_result e.str)) := by
  refine ⟨?_, ?_, ?_⟩
  · intro h
    have hv : reg.validate_parameters name (arguments.getD []) =
        .error (.toolNotFoundError name) := by
      simp [ToolRegistry.validate_parameters, ToolRegistry.get_tool, h]
    constructor
    · simp [call_tool, hv, isCaughtByFirstExcept]
    · simp [call_tool, hv, isCaughtByFirstExcept, create_error_result]
  · intro m ms hv
    constructor
    · simp [call_tool, hv, isCaughtByFirstExcept, Exc.str]
    · simp [call_tool, hv, isCaughtByFirstExcept, create_error_result]
  · intro td hlook hok e he
    have hget : reg.get_tool name = .ok td := by
      simp [ToolRegistry.get_tool, hlook]
    refine ⟨?_, ?_, ?_⟩
    · cases hc : isCaughtByFirstExcept e <;>
        simp [call_tool, hok, hget, he, hc, create_error_result]
    · intro hc
      simp [call_tool, hok, hget, he, hc]
    · intro hc
      simp [call_tool, hok, hget, he, hc]

/-- Registry for the dispatch witness: one tool whose handler raises a
foreign exception, one tool with a required parameter. -/
def C3regW : ToolRegistry Nat :=
  ⟨[("crash", ⟨"crash", "Always fails", [], fun _ => .error (.otherError "boom")⟩),
    ("echo", ⟨"echo", "Echo a message", ["msg"], fun _ => .ok 0⟩)]⟩

theorem C3_witness :
    (call_tool toString C3regW "nope" none).isError = true ∧
    call_tool toString C3regW "crash" (some []) =
      create_error_result "Tool execution failed: boom" ∧
    (call_tool toString C3regW "crash" (some [])).isError = true := by
  have h1 := (C3_dispatch_error_envelopes toString C3regW "nope" none).1 rfl
  have h3 := (C3_dispatch_error_envelopes toString C3regW "crash" (some [])).2.2
    _ rfl rfl (.otherError "boom") rfl
  exact ⟨h1.2, h3.2.1 rfl, h3.1⟩
